import Mathlib

/-!
Verification development for the GeminiCalMgr calibration association engine.

The definitions below are a shallow embedding of the Python sources:

* `gemini_calmgr/cal/calibration.py` — the `CalQuery` fluent query builder and
  the base `Calibration` class;
* `gemini_calmgr/cal/calibration_gmos.py`, `calibration_gnirs.py`,
  `calibration_gsaoi.py`, `calibration_michelle.py`, `calibration_nifs.py` —
  the per-instrument rule sets used by the claims;
* `gemini_calmgr/cal/associate_calibrations.py` — the association
  orchestrator and its cache-backed variant;
* `gemini_calmgr/cal/__init__.py` — the instrument dispatch table.

Catalog rows are modelled as records carrying the joined
`Header`/`DiskFile`/instrument-table columns the rules read; SQLAlchemy
queries are modelled as boolean predicates over such rows, materialised by
filtering a catalog list, sorting it with a deterministic refinement of the
SQL `ORDER BY` (a stable insertion sort over the order terms) and taking the
`LIMIT`.  Python dynamic failures (`TypeError`, `ValueError`, ...) are made
explicit with an `Except` result type where a claim depends on them.
-/

set_option maxRecDepth 2000

namespace GeminiCalMgr

/-- Python exception kinds that the embedded code can raise. -/
inductive PyErr where
  | typeError
  | valueError
  | runtimeError
  | attributeError
  deriving DecidableEq, Repr

/-! ### Small string utilities

SQL `LIKE '%pat%'` / Python `pat in s` need a substring test; comparisons of
strings (used only as sort keys) are done on the lists of character codes so
that everything reduces inside the kernel. -/

/-- Character codes of a string, used for kernel-computable comparisons. -/
def strCodes (s : String) : List Nat := s.toList.map Char.toNat

/-- Substring test on character lists: `pat` occurs somewhere in the list. -/
def charsContain (pat : List Char) : List Char → Bool
  | [] => pat.isEmpty
  | c :: rest => pat.isPrefixOf (c :: rest) || charsContain pat rest

/-- Python `pat in s` / SQL `LIKE '%pat%'`: substring containment. -/
def strContains (s pat : String) : Bool := charsContain pat.toList s.toList

/-- SQL `LIKE '%pat'`: suffix test (on character lists so that it reduces in
the kernel). -/
def strEndsWith (s pat : String) : Bool :=
  pat.toList.reverse.isPrefixOf s.toList.reverse

/-- SQL `LIKE 'pat%'`: prefix test. -/
def strStartsWith (s pat : String) : Bool := pat.toList.isPrefixOf s.toList

/-! ### Comparators and a stable sort

`cmpN` and `cmpNL` are three-way comparators on `Nat` and `List Nat`;
`Ordering.then` chains them lexicographically.  `isortBy` is a stable
insertion sort (stable in the same sense as Python's `list.sort` and as a
deterministic refinement of SQL `ORDER BY`). -/

/-- Three-way comparator on naturals. -/
def cmpN (a b : Nat) : Ordering := if a < b then .lt else if b < a then .gt else .eq

/-- Three-way comparator on integers. -/
def cmpI (a b : Int) : Ordering := if a < b then .lt else if b < a then .gt else .eq

/-- Three-way lexicographic comparator on lists of naturals. -/
def cmpNL : List Nat → List Nat → Ordering
  | [], [] => .eq
  | [], _ :: _ => .lt
  | _ :: _, [] => .gt
  | a :: as, b :: bs => (cmpN a b).then (cmpNL as bs)

theorem cmpN_eq_iff {a b : Nat} : cmpN a b = .eq ↔ a = b := by
  unfold cmpN; split_ifs <;> simp_all <;> omega

theorem cmpN_lt_iff {a b : Nat} : cmpN a b = .lt ↔ a < b := by
  unfold cmpN; split_ifs <;> simp_all

theorem cmpN_gt_iff {a b : Nat} : cmpN a b = .gt ↔ b < a := by
  unfold cmpN; split_ifs <;> simp_all <;> omega

theorem cmpNL_eq_iff : ∀ {a b : List Nat}, cmpNL a b = .eq ↔ a = b := by
  intro a
  induction a with
  | nil => intro b; cases b <;> simp [cmpNL]
  | cons x xs ih =>
    intro b
    cases b with
    | nil => simp [cmpNL]
    | cons y ys =>
      simp only [cmpNL, Ordering.then]
      rcases h : cmpN x y with _ | _ | _
      · simp [cmpN_lt_iff.mp h |>.ne]
      · have hxy := cmpN_eq_iff.mp h
        simp [hxy, ih]
      · have := cmpN_gt_iff.mp h
        simp; omega

theorem cmpNL_gt_iff_lt : ∀ {a b : List Nat}, cmpNL a b = .gt ↔ cmpNL b a = .lt := by
  intro a
  induction a with
  | nil => intro b; cases b <;> simp [cmpNL]
  | cons x xs ih =>
    intro b
    cases b with
    | nil => simp [cmpNL]
    | cons y ys =>
      simp only [cmpNL, Ordering.then]
      rcases h : cmpN x y with _ | _ | _
      · have hx := cmpN_lt_iff.mp h
        have : cmpN y x = .gt := cmpN_gt_iff.mpr hx
        simp [this]
      · have hxy := cmpN_eq_iff.mp h
        have : cmpN y x = .eq := cmpN_eq_iff.mpr hxy.symm
        simp [this, ih]
      · have hx := cmpN_gt_iff.mp h
        have : cmpN y x = .lt := cmpN_lt_iff.mpr hx
        simp [this]

theorem cmpNL_trans_notgt : ∀ {a b c : List Nat},
    cmpNL a b ≠ .gt → cmpNL b c ≠ .gt → cmpNL a c ≠ .gt := by
  intro a
  induction a with
  | nil =>
    intro b c _ _
    cases c <;> simp [cmpNL]
  | cons x xs ih =>
    intro b c hab hbc
    cases b with
    | nil => simp [cmpNL] at hab
    | cons y ys =>
      cases c with
      | nil => simp [cmpNL] at hbc
      | cons z zs =>
        simp only [cmpNL, Ordering.then] at *
        rcases hxy : cmpN x y with _ | _ | _ <;> rw [hxy] at hab
        · rcases hyz : cmpN y z with _ | _ | _ <;> rw [hyz] at hbc
          · have : cmpN x z = .lt :=
              cmpN_lt_iff.mpr ((cmpN_lt_iff.mp hxy).trans (cmpN_lt_iff.mp hyz))
            simp [this]
          · have : cmpN x z = .lt := by
              rw [← cmpN_eq_iff.mp hyz]; exact hxy
            simp [this]
          · exact absurd rfl hbc
        · rcases hyz : cmpN y z with _ | _ | _ <;> rw [hyz] at hbc
          · have : cmpN x z = .lt := by
              rw [cmpN_eq_iff.mp hxy]; exact hyz
            simp [this]
          · have : cmpN x z = .eq := by
              rw [cmpN_eq_iff.mp hxy]; exact hyz
            simp only [this]
            exact ih hab hbc
          · exact absurd rfl hbc
        · exact absurd rfl hab

theorem cmpNL_total_notgt : ∀ {a b : List Nat}, cmpNL a b ≠ .gt ∨ cmpNL b a ≠ .gt := by
  intro a b
  rcases h : cmpNL a b with _ | _ | _
  · left; simp [h]
  · left; simp [h]
  · right
    have := cmpNL_gt_iff_lt.mp h
    simp [this]

/-- Stable insertion of `x` into a list: `x` is placed before the first
element `y` with `le x y` (so equal-key elements keep their original
relative order, as in Python's stable `list.sort`). -/
def isortInsert (le : α → α → Bool) (x : α) : List α → List α
  | [] => [x]
  | y :: ys => if le x y then x :: y :: ys else y :: isortInsert le x ys

/-- Stable insertion sort with comparator `le`. -/
def isortBy (le : α → α → Bool) : List α → List α
  | [] => []
  | x :: xs => isortInsert le x (isortBy le xs)

theorem mem_isortInsert {le : α → α → Bool} {x a : α} :
    ∀ {l : List α}, a ∈ isortInsert le x l ↔ a = x ∨ a ∈ l := by
  intro l
  induction l with
  | nil => simp [isortInsert]
  | cons y ys ih =>
    simp only [isortInsert]
    split
    · simp [or_comm, or_assoc, or_left_comm]
    · simp [ih, or_comm, or_assoc, or_left_comm]

theorem mem_isortBy {le : α → α → Bool} {a : α} :
    ∀ {l : List α}, a ∈ isortBy le l ↔ a ∈ l := by
  intro l
  induction l with
  | nil => simp [isortBy]
  | cons x xs ih => simp [isortBy, mem_isortInsert, ih]

theorem pairwise_isortInsert {le : α → α → Bool}
    (htot : ∀ a b, le a b = true ∨ le b a = true)
    (htrans : ∀ a b c, le a b = true → le b c = true → le a c = true)
    {x : α} : ∀ {l : List α}, l.Pairwise (le · · = true) →
      (isortInsert le x l).Pairwise (le · · = true) := by
  intro l
  induction l with
  | nil => intro _; simp [isortInsert]
  | cons y ys ih =>
    intro hp
    rcases List.pairwise_cons.mp hp with ⟨hy, hys⟩
    simp only [isortInsert]
    split
    · rename_i hxy
      refine List.pairwise_cons.mpr ⟨?_, hp⟩
      intro b hb
      rcases List.mem_cons.mp hb with hb | hb
      · exact hb ▸ hxy
      · exact htrans _ _ _ hxy (hy b hb)
    · rename_i hxy
      have hyx : le y x = true := (htot x y).resolve_left (by simpa using hxy)
      refine List.pairwise_cons.mpr ⟨?_, ih hys⟩
      intro b hb
      rcases mem_isortInsert.mp hb with hb | hb
      · exact hb ▸ hyx
      · exact hy b hb

theorem pairwise_isortBy {le : α → α → Bool}
    (htot : ∀ a b, le a b = true ∨ le b a = true)
    (htrans : ∀ a b c, le a b = true → le b c = true → le a c = true) :
    ∀ (l : List α), (isortBy le l).Pairwise (le · · = true) := by
  intro l
  induction l with
  | nil => simp [isortBy]
  | cons x xs ih => exact pairwise_isortInsert htot htrans ih

theorem mem_take_isortBy {le : α → α → Bool} {a : α} {n : Nat} {l : List α}
    (h : a ∈ (isortBy le l).take n) : a ∈ l :=
  mem_isortBy.mp (List.mem_of_mem_take h)

/-! ### The catalog row and the descriptor bundle

A `Row` is the joined catalog tuple a calibration query ranges over: the
`Header` columns together with the `DiskFile` flags and the per-instrument
table columns read by the rules settled here (the GMOS and GNIRS columns
live in separate tables in the schema; a row returned by one instrument's
query only ever has that instrument's columns inspected).  Nullable SQL
columns are `Option`-typed; `ut` is `Header.ut_datetime` as integer seconds
(the schema also stores it redundantly as `Header.ut_datetime_secs`, used by
the default ordering). -/

structure Row where
  hid : Nat
  canonical : Bool
  present : Bool
  engineering : Bool
  qa_state : String
  procmode : Option String
  reduction : String
  observation_type : String
  observation_class : String
  observation_id : String
  types : String
  instrument : String
  ut : Int
  central_wavelength : Option ℚ
  gcal_lamp : String
  detector_roi_setting : String
  detector_binning : String
  disperser : Option String
  filter_name : Option String
  focal_plane_mask : Option String
  amp_read_area : Option String
  array_name : Option String
  camera : Option String
  well_depth_setting : Option String
  detector_x_bin : Option Nat
  detector_y_bin : Option Nat
  deriving DecidableEq, Repr

/-- The target's descriptor bundle (`self.descriptors`), restricted to the
descriptors the settled rules read.  Values mirror the corresponding header
or instrument-table columns. -/
structure Descr where
  instrument : String
  observation_id : String
  spectroscopy : Bool
  ut : Int
  central_wavelength : Option ℚ
  detector_roi_setting : String
  detector_binning : String
  disperser : Option String
  filter_name : Option String
  focal_plane_mask : Option String
  amp_read_area : Option String
  array_name : Option String
  camera : Option String
  well_depth_setting : Option String
  detector_x_bin : Option Nat
  detector_y_bin : Option Nat
  deriving DecidableEq, Repr

/-! ### Default query ordering (`CalQuery.all`)

`CalQuery.all` orders by `desc(DiskFile.present)`, then absolute time
separation from the target, then `desc` of the procmode sort key (the
`case` expression mapping a null or empty procmode to `'AAA'`).  Extra
order terms, when given, precede that triple (`DEFAULT_ORDER_BY_LAST`).
The comparators below realise those keys; `rowLeOf` chains up to four keys
lexicographically, with the final (procmode) key compared descending. -/

/-- Sort key of the `case` expression on `Header.procmode`: a null or empty
procmode maps to `'AAA'`, everything else to itself. -/
def procmode_sortkey (r : Row) : String :=
  match r.procmode with
  | some pm => if pm = "" then "AAA" else pm
  | none => "AAA"

/-- Lexicographic row comparator from three ascending `Nat` keys and one
descending string key (as character codes).  `k1` is the slot for an extra
order term (constantly `0` when there is none). -/
def rowLeOf (k1 k2 k3 : Row → Nat) (k4 : Row → List Nat) (a b : Row) : Bool :=
  ((cmpN (k1 a) (k1 b)).then ((cmpN (k2 a) (k2 b)).then
    ((cmpN (k3 a) (k3 b)).then (cmpNL (k4 b) (k4 a))))) != .gt

/-- Key for `desc(DiskFile.present)`: present rows first. -/
def presentKey (r : Row) : Nat := if r.present then 0 else 1

/-- Key for `func.abs(Header.ut_datetime_secs - targ_ut_dt_secs)`. -/
def timeKey (d : Descr) (r : Row) : Nat := (r.ut - d.ut).natAbs

/-- The default `CalQuery.all` ordering (no extra order terms). -/
def defaultLe (d : Descr) : Row → Row → Bool :=
  rowLeOf (fun _ => 0) presentKey (timeKey d) (fun r => strCodes (procmode_sortkey r))

/-- The GNIRS flat ordering: the extra order term
`desc(Header.observation_id == target.observation_id)` first, then the
default triple. -/
def obsIdPrefLe (d : Descr) : Row → Row → Bool :=
  rowLeOf (fun r => if r.observation_id = d.observation_id then 0 else 1)
    presentKey (timeKey d) (fun r => strCodes (procmode_sortkey r))

theorem bne_gt_iff {o : Ordering} : (o != .gt) = true ↔ o ≠ .gt := by
  cases o <;> decide

theorem then_notgt_iff {o1 o2 : Ordering} :
    (o1.then o2 != .gt) = true ↔ o1 = .lt ∨ (o1 = .eq ∧ (o2 != .gt) = true) := by
  cases o1 <;> cases o2 <;> simp [Ordering.then] <;> decide

/-- `rowLeOf` characterised as a lexicographic proposition over the keys. -/
theorem rowLeOf_iff {k1 k2 k3 : Row → Nat} {k4 : Row → List Nat} {a b : Row} :
    rowLeOf k1 k2 k3 k4 a b = true ↔
      (k1 a < k1 b ∨ (k1 a = k1 b ∧
        (k2 a < k2 b ∨ (k2 a = k2 b ∧
          (k3 a < k3 b ∨ (k3 a = k3 b ∧ cmpNL (k4 b) (k4 a) ≠ .gt)))))) := by
  unfold rowLeOf
  rw [then_notgt_iff, cmpN_lt_iff, cmpN_eq_iff]
  rw [then_notgt_iff, cmpN_lt_iff, cmpN_eq_iff]
  rw [then_notgt_iff, cmpN_lt_iff, cmpN_eq_iff]
  rw [bne_gt_iff]

theorem rowLeOf_total (k1 k2 k3 : Row → Nat) (k4 : Row → List Nat) (a b : Row) :
    rowLeOf k1 k2 k3 k4 a b = true ∨ rowLeOf k1 k2 k3 k4 b a = true := by
  rw [rowLeOf_iff, rowLeOf_iff]
  rcases Nat.lt_trichotomy (k1 a) (k1 b) with h1 | h1 | h1
  · exact Or.inl (Or.inl h1)
  · rcases Nat.lt_trichotomy (k2 a) (k2 b) with h2 | h2 | h2
    · exact Or.inl (Or.inr ⟨h1, Or.inl h2⟩)
    · rcases Nat.lt_trichotomy (k3 a) (k3 b) with h3 | h3 | h3
      · exact Or.inl (Or.inr ⟨h1, Or.inr ⟨h2, Or.inl h3⟩⟩)
      · rcases cmpNL_total_notgt (a := k4 b) (b := k4 a) with h4 | h4
        · exact Or.inl (Or.inr ⟨h1, Or.inr ⟨h2, Or.inr ⟨h3, h4⟩⟩⟩)
        · exact Or.inr (Or.inr ⟨h1.symm, Or.inr ⟨h2.symm, Or.inr ⟨h3.symm, h4⟩⟩⟩)
      · exact Or.inr (Or.inr ⟨h1.symm, Or.inr ⟨h2.symm, Or.inl h3⟩⟩)
    · exact Or.inr (Or.inr ⟨h1.symm, Or.inl h2⟩)
  · exact Or.inr (Or.inl h1)

theorem rowLeOf_trans (k1 k2 k3 : Row → Nat) (k4 : Row → List Nat) (a b c : Row)
    (hab : rowLeOf k1 k2 k3 k4 a b = true) (hbc : rowLeOf k1 k2 k3 k4 b c = true) :
    rowLeOf k1 k2 k3 k4 a c = true := by
  rw [rowLeOf_iff] at hab hbc ⊢
  rcases hab with h1 | ⟨h1, hab⟩
  · rcases hbc with h2 | ⟨h2, _⟩
    · exact Or.inl (h1.trans h2)
    · exact Or.inl (h2 ▸ h1)
  · rcases hbc with h2 | ⟨h2, hbc⟩
    · exact Or.inl (h1 ▸ h2)
    · refine Or.inr ⟨h1.trans h2, ?_⟩
      rcases hab with g1 | ⟨g1, hab⟩
      · rcases hbc with g2 | ⟨g2, _⟩
        · exact Or.inl (g1.trans g2)
        · exact Or.inl (g2 ▸ g1)
      · rcases hbc with g2 | ⟨g2, hbc⟩
        · exact Or.inl (g1 ▸ g2)
        · refine Or.inr ⟨g1.trans g2, ?_⟩
          rcases hab with f1 | ⟨f1, hab⟩
          · rcases hbc with f2 | ⟨f2, _⟩
            · exact Or.inl (f1.trans f2)
            · exact Or.inl (f2 ▸ f1)
          · rcases hbc with f2 | ⟨f2, hbc⟩
            · exact Or.inl (f1 ▸ f2)
            · exact Or.inr ⟨f1.trans f2, cmpNL_trans_notgt hbc hab⟩

/-- The first key is respected by `rowLeOf`: an earlier row never has a
strictly larger first key. -/
theorem rowLeOf_key1_le (k1 k2 k3 : Row → Nat) (k4 : Row → List Nat) (a b : Row)
    (h : rowLeOf k1 k2 k3 k4 a b = true) : k1 a ≤ k1 b := by
  rw [rowLeOf_iff] at h
  rcases h with h | ⟨h, _⟩
  · exact le_of_lt h
  · exact le_of_eq h

/-! ### The `CalQuery` builder (`calibration.py`)

A `CalQuery` is modelled as the target's descriptor bundle together with the
boolean predicate accumulated by the chained filter methods.  `CalQuery.init`
is `CalQuery.__init__`: it installs the unconditional base filters
(`DiskFile.canonical == True`, `Header.qa_state != 'Fail'`,
`Header.engineering == False`, and `Header.procmode == 'sq'` when the
requested procmode is `'sq'`).  Note there is *no* filter on
`DiskFile.present`; `present` only appears in the default ordering.

SQLAlchemy's `column == value` on a nullable column is `IS NULL` when
`value` is null, which `Option` equality models exactly; `column > x`
comparisons on a SQL NULL are not satisfied, which the `Option` matches
below model by returning `false` for `none`. -/

structure CalQuery where
  descr : Descr
  procmode : Option String
  pred : Row → Bool

/-- `CalQuery.__init__` (calibration.py:104-124): the unconditional base
filters.  The `include_engineering` opt-in does not exist here: the
constructor takes no such argument and always filters out engineering
rows. -/
def CalQuery.init (d : Descr) (pm : Option String) : CalQuery :=
  { descr := d
    procmode := pm
    pred := fun r =>
      (if pm = some "sq" then r.procmode == some "sq" else true) &&
      (r.canonical && (r.qa_state != "Fail") && (r.engineering == false)) }

/-- `CalQuery.add_filters`: conjoin one more predicate (the Python method is
variadic; chaining models the `for arg in args` loop). -/
def CalQuery.add_filters (q : CalQuery) (p : Row → Bool) : CalQuery :=
  { q with pred := fun r => q.pred r && p r }

/-- `CalQuery.reduction`: filter `Header.reduction == red`. -/
def CalQuery.reduction (q : CalQuery) (red : String) : CalQuery :=
  q.add_filters (fun r => r.reduction == red)

/-- `CalQuery.raw`: shorthand for `reduction('RAW')`. -/
def CalQuery.raw (q : CalQuery) : CalQuery := q.reduction "RAW"

/-- `CalQuery.observation_type`: filter `Header.observation_type == ot`. -/
def CalQuery.observation_type (q : CalQuery) (ot : String) : CalQuery :=
  q.add_filters (fun r => r.observation_type == ot)

/-- `CalQuery.observation_class`: filter `Header.observation_class == oc`. -/
def CalQuery.observation_class (q : CalQuery) (oc : String) : CalQuery :=
  q.add_filters (fun r => r.observation_class == oc)

/-- `CalQuery.raw_or_processed`: `reduction('PROCESSED_'+name)` when
processed, else `raw().observation_type(name)`. -/
def CalQuery.raw_or_processed (q : CalQuery) (name : String) (processed : Bool) : CalQuery :=
  if processed then q.reduction ("PROCESSED_" ++ name) else (q.raw).observation_type name

/-- `CalQuery.raw_or_processed_by_types`: `reduction('PROCESSED_'+name)` when
processed, else `raw()` plus `Header.types LIKE '%name%'`. -/
def CalQuery.raw_or_processed_by_types (q : CalQuery) (name : String) (processed : Bool) :
    CalQuery :=
  if processed then q.reduction ("PROCESSED_" ++ name)
  else (q.raw).add_filters (fun r => strContains r.types name)

/-- `CalQuery.arc`: shorthand for `raw_or_processed('ARC', processed)`. -/
def CalQuery.arc (q : CalQuery) (processed : Bool) : CalQuery :=
  q.raw_or_processed "ARC" processed

/-- `CalQuery.flat`: shorthand for `raw_or_processed('FLAT', processed)`. -/
def CalQuery.flat (q : CalQuery) (processed : Bool) : CalQuery :=
  q.raw_or_processed "FLAT" processed

/-- `CalQuery.standard`: shorthand for `raw_or_processed('STANDARD', processed)`. -/
def CalQuery.standard (q : CalQuery) (processed : Bool) : CalQuery :=
  q.raw_or_processed "STANDARD" processed

/-- `CalQuery.slitillum`: shorthand for
`raw_or_processed_by_types('SLITILLUM', processed)`. -/
def CalQuery.slitillum (q : CalQuery) (processed : Bool) : CalQuery :=
  q.raw_or_processed_by_types "SLITILLUM" processed

/-- `CalQuery.max_interval(days=n)`: builds `timedelta(days=n)` and filters
`header.ut_datetime - delta < cal.ut_datetime < header.ut_datetime + delta`
(both comparisons strict). -/
def CalQuery.max_interval (q : CalQuery) (days : Int) : CalQuery :=
  q.add_filters (fun r =>
    decide (q.descr.ut - days * 86400 < r.ut) && decide (r.ut < q.descr.ut + days * 86400))

/-- `CalQuery.tolerance(descriptor=tol, condition=...)`, specialised to one
numeric descriptor whose target value is a float or None (the shapes the
settled rules use; the fully dynamic version, with its exception behaviour,
is `tolerance_dyn` below).  `float(None)` raises `TypeError`, which the
method catches and ignores, so a null target value adds no filter; a numeric
target value adds `column > value - tol AND column < value + tol`, which a
NULL column never satisfies. -/
def CalQuery.tolerance (q : CalQuery) (target : Option ℚ) (col : Row → Option ℚ)
    (tol : ℚ) (condition : Bool := true) : CalQuery :=
  if condition then
    match target with
    | none => q
    | some t =>
      q.add_filters (fun r =>
        match col r with
        | none => false
        | some y => decide (t - tol < y) && decide (y < t + tol))
  else q

/-- `CalQuery.if_(condition, methodname, ...)`: apply `f` only when the
condition holds. -/
def CalQuery.if_ (q : CalQuery) (condition : Bool) (f : CalQuery → CalQuery) : CalQuery :=
  if condition then f q else q

/-- `CalQuery.all(limit, ...)`: materialise the query — filter the catalog,
order it deterministically with the comparator realising the `ORDER BY`
terms, and take `limit` rows. -/
def CalQuery.all (q : CalQuery) (catalog : List Row) (limit : Nat)
    (le : Row → Row → Bool) : List Row :=
  ((isortBy le (catalog.filter q.pred))).take limit

/-! `Built d pm q` says the query `q` was built from `CalQuery.init d pm` by
chaining filter methods.  Every filter method above is a `add_filters`
chain, so closure under `add_filters` covers all of them; this is the
formal counterpart of "any rule's query": rules only ever append filters
and ordering terms to the query the constructor returns. -/

inductive Built (d : Descr) (pm : Option String) : CalQuery → Prop where
  | init : Built d pm (CalQuery.init d pm)
  | add_filters (q : CalQuery) (p : Row → Bool) :
      Built d pm q → Built d pm (q.add_filters p)

theorem Built.pred_base {d : Descr} {pm : Option String} {q : CalQuery} {r : Row}
    (hb : Built d pm q) (h : q.pred r = true) : (CalQuery.init d pm).pred r = true := by
  induction hb with
  | init => exact h
  | add_filters q p _ ih =>
    exact ih (by
      simp only [CalQuery.add_filters, Bool.and_eq_true] at h
      exact h.1)

theorem init_pred_iff {d : Descr} {pm : Option String} {r : Row} :
    (CalQuery.init d pm).pred r = true ↔
      (pm = some "sq" → r.procmode = some "sq") ∧
      r.canonical = true ∧ r.qa_state ≠ "Fail" ∧ r.engineering = false := by
  unfold CalQuery.init
  simp only [Bool.and_eq_true, bne_iff_ne, ne_eq]
  constructor
  · rintro ⟨h1, ⟨h2, h3⟩, h4⟩
    refine ⟨fun hpm => ?_, h2, h3, by simpa using h4⟩
    rw [if_pos hpm] at h1
    exact beq_iff_eq.mp h1
  · rintro ⟨h1, h2, h3, h4⟩
    refine ⟨?_, ⟨h2, h3⟩, by simpa using h4⟩
    by_cases hpm : pm = some "sq"
    · rw [if_pos hpm]
      exact beq_iff_eq.mpr (h1 hpm)
    · rw [if_neg hpm]

theorem mem_all_pred {q : CalQuery} {catalog : List Row} {limit : Nat}
    {le : Row → Row → Bool} {r : Row} (h : r ∈ q.all catalog limit le) :
    r ∈ catalog ∧ q.pred r = true := by
  have hr := mem_take_isortBy h
  exact ⟨List.mem_of_mem_filter hr, List.of_mem_filter hr⟩

/-! ### `CalibrationGMOS.arc` (calibration_gmos.py:164-238)

The arc rule.  `@not_imaging` returns `[]` when the target is not
spectroscopy; otherwise the rule builds the filter list (focal-plane-mask
special case, `amp_read_area`/ROI policy) and chains
`arc(processed)`, `add_filters`, `match_descriptors(Header.instrument,
Gmos.disperser, Gmos.filter_name, Gmos.detector_x_bin, Gmos.detector_y_bin)`,
`tolerance(central_wavelength=0.001)` and `max_interval(days=365)`. -/

/-- The `filters` list built at the top of `CalibrationGMOS.arc`
(focal-plane-mask clause followed by the processed-ROI / raw-amp clause),
as one conjunction. -/
def gmosArcFilters (d : Descr) (processed : Bool) (r : Row) : Bool :=
  (if d.focal_plane_mask != some "5.0arcsec" then
    r.focal_plane_mask == d.focal_plane_mask
  else
    match r.focal_plane_mask with
    | some m => strEndsWith m "arcsec"
    | none => false) &&
  (if processed then
    (if d.detector_roi_setting == "Full Frame" then
      r.detector_roi_setting == "Full Frame"
    else if d.detector_roi_setting == "Central Spectrum" then
      (r.detector_roi_setting == "Full Frame" || r.detector_roi_setting == "Central Spectrum")
    else
      r.detector_roi_setting == "Full Frame")
  else
    (if d.detector_roi_setting == "Full Frame" || d.detector_roi_setting == "Central Spectrum"
     then r.amp_read_area == d.amp_read_area
     else match d.amp_read_area with
       | some a => (match r.amp_read_area with
         | some ra => strContains ra a
         | none => false)
       | none => true))

/-- The query chained in `CalibrationGMOS.arc` after the filters list. -/
def gmosArcQuery (d : Descr) (pm : Option String) (processed : Bool) : CalQuery :=
  (((((CalQuery.init d pm).arc processed).add_filters (gmosArcFilters d processed)
    |>.add_filters (fun r => r.instrument == d.instrument)
    |>.add_filters (fun r => r.disperser == d.disperser)
    |>.add_filters (fun r => r.filter_name == d.filter_name)
    |>.add_filters (fun r => r.detector_x_bin == d.detector_x_bin)
    |>.add_filters (fun r => r.detector_y_bin == d.detector_y_bin))
    |>.tolerance d.central_wavelength Row.central_wavelength (1/1000))
    |>.max_interval 365)

/-- `CalibrationGMOS.arc`: `@not_imaging`, then the query above,
materialised with `howmany` (default 1) and the default ordering. -/
def CalibrationGMOS.arc (d : Descr) (pm : Option String) (catalog : List Row)
    (processed : Bool) (howmanyOpt : Option Nat) : List Row :=
  if d.spectroscopy = false then []
  else (gmosArcQuery d pm processed).all catalog (howmanyOpt.getD 1) (defaultLe d)

/-! ### `CalibrationGNIRS.flat` (calibration_gnirs.py:160-286)

`get_gnirs_flat_query` builds the shared flat query; the `flat` rule then
either (XD dispersers) runs an `IRhigh` sub-query and a `QH%` sub-query,
pads the shorter result with `None`, interleaves them pairwise starting
with the IR list, drops the `None`s and takes `howmany`; or (non-XD) runs a
single query admitting both lamp kinds.  Both orderings put rows sharing
the target's `observation_id` first
(`extra_order_terms=[desc(Header.observation_id == ...)]`). -/

/-- `CalibrationGNIRS.get_gnirs_flat_query`: `flat(processed)` plus
`match_descriptors(Gnirs.disperser, Gnirs.focal_plane_mask, Gnirs.camera,
Gnirs.filter_name, Gnirs.well_depth_setting)` plus, for spectroscopy,
a (repeated) disperser match and `tolerance(central_wavelength=0.001)`. -/
def get_gnirs_flat_query (d : Descr) (pm : Option String) (processed : Bool) : CalQuery :=
  ((((CalQuery.init d pm).flat processed)
    |>.add_filters (fun r => r.disperser == d.disperser)
    |>.add_filters (fun r => r.focal_plane_mask == d.focal_plane_mask)
    |>.add_filters (fun r => r.camera == d.camera)
    |>.add_filters (fun r => r.filter_name == d.filter_name)
    |>.add_filters (fun r => r.well_depth_setting == d.well_depth_setting))
    |>.if_ d.spectroscopy (fun q => q.add_filters (fun r => r.disperser == d.disperser)))
    |>.if_ d.spectroscopy (fun q => q.tolerance d.central_wavelength Row.central_wavelength (1/1000))

/-- `self.descriptors['disperser'] and 'XD' in self.descriptors['disperser']`:
a null disperser is falsy (and an empty string contains no `'XD'`), so the
XD branch is taken exactly when the disperser is non-null and contains
`'XD'`. -/
def gnirsIsXD (d : Descr) : Bool :=
  match d.disperser with
  | some disp => strContains disp "XD"
  | none => false

/-- The XD branch's `IRhigh` sub-query result (`ir_all`). -/
def gnirs_ir_all (d : Descr) (pm : Option String) (catalog : List Row)
    (processed : Bool) (howmany : Nat) : List Row :=
  (((get_gnirs_flat_query d pm processed).add_filters (fun r => r.gcal_lamp == "IRhigh"))
    |>.max_interval 90).all catalog howmany (obsIdPrefLe d)

/-- The XD branch's `QH%` sub-query result (`qh_all`). -/
def gnirs_qh_all (d : Descr) (pm : Option String) (catalog : List Row)
    (processed : Bool) (howmany : Nat) : List Row :=
  (((get_gnirs_flat_query d pm processed).add_filters (fun r => strStartsWith r.gcal_lamp "QH"))
    |>.max_interval 90).all catalog howmany (obsIdPrefLe d)

/-- The Python weave
`[x for x in chain(*zip(ir_all, qh_all)) if x is not None]` after the two
lists are padded with `None` to equal length. -/
def pyPadZipWeave (ir qh : List Row) : List Row :=
  let n := max ir.length qh.length
  let irO := ir.map some ++ List.replicate (n - ir.length) (none : Option Row)
  let qhO := qh.map some ++ List.replicate (n - qh.length) (none : Option Row)
  ((irO.zip qhO).flatMap (fun p => [p.1, p.2])).filterMap id

/-- `CalibrationGNIRS.flat`. -/
def CalibrationGNIRS.flat (d : Descr) (pm : Option String) (catalog : List Row)
    (processed : Bool) (howmanyOpt : Option Nat) : List Row :=
  let howmany := howmanyOpt.getD (if processed then 1 else 10)
  if gnirsIsXD d then
    (pyPadZipWeave (gnirs_ir_all d pm catalog processed howmany)
      (gnirs_qh_all d pm catalog processed howmany)).take howmany
  else
    (((get_gnirs_flat_query d pm processed).add_filters
        (fun r => r.gcal_lamp == "IRhigh" || strStartsWith r.gcal_lamp "QH"))
      |>.max_interval 90).all catalog howmany (obsIdPrefLe d)

/-- The specification's interleaving: alternate elements pairwise starting
with the first list, appending the tail of the longer list. -/
def interleave : List α → List α → List α
  | [], ys => ys
  | xs, [] => xs
  | x :: xs, y :: ys => x :: y :: interleave xs ys

theorem pyPadZipWeave_nil_left (qh : List Row) : pyPadZipWeave [] qh = qh := by
  have aux : ∀ (ys : List Row),
      List.filterMap id (((List.replicate ys.length (none : Option Row)).zip
        (ys.map some)).flatMap (fun p => [p.1, p.2])) = ys := by
    intro ys
    induction ys with
    | nil => rfl
    | cons y ys ih => simpa [List.replicate_succ] using ih
  simpa [pyPadZipWeave, Nat.sub_self] using aux qh

theorem pyPadZipWeave_nil_right (ir : List Row) : pyPadZipWeave ir [] = ir := by
  have aux : ∀ (xs : List Row),
      List.filterMap id (((xs.map some).zip
        (List.replicate xs.length (none : Option Row))).flatMap (fun p => [p.1, p.2])) = xs := by
    intro xs
    induction xs with
    | nil => rfl
    | cons x xs ih => simpa [List.replicate_succ] using ih
  simpa [pyPadZipWeave, Nat.sub_self] using aux ir

theorem pyPadZipWeave_cons (x y : Row) (xs ys : List Row) :
    pyPadZipWeave (x :: xs) (y :: ys) = x :: y :: pyPadZipWeave xs ys := by
  simp only [pyPadZipWeave, List.length_cons, Nat.succ_max_succ, Nat.succ_sub_succ,
    List.map_cons, List.cons_append, List.zip_cons_cons, List.flatMap_cons,
    List.filterMap_cons]
  rfl

/-- The pad/zip/chain/filter pipeline computes exactly the pairwise
interleaving. -/
theorem pyPadZipWeave_eq_interleave : ∀ (ir qh : List Row),
    pyPadZipWeave ir qh = interleave ir qh := by
  intro ir
  induction ir with
  | nil => intro qh; rw [pyPadZipWeave_nil_left]; cases qh <;> simp [interleave]
  | cons x xs ih =>
    intro qh
    cases qh with
    | nil => rw [pyPadZipWeave_nil_right]; simp [interleave]
    | cons y ys =>
      rw [pyPadZipWeave_cons, ih ys]
      simp [interleave]

/-! ### `CalibrationGMOS.standard` and `.slitillum`
(calibration_gmos.py:669-751 and 957-1022, with `_get_fuzzy_wavelength` at
1024-1056)

Both rules gather up to 1000 candidates through coarse filters (a
wavelength band derived from the disperser name, matching instrument,
disperser, binning and filter, within 183 days), then sort the candidates
in Python by a score and slice off `howmany`.

The dispersion loop `for dv in ['1200','600','831','400','150']: if dv in
disperser: n = float(dv)` keeps the *last* matching value (no `break`).

The score is `wavelength_score + ut_datetime_score` where
`ut_datetime_score = abs((header.ut_datetime - ut_datetime).seconds) /
(30.0*24.0*60.0*60.0)`.  Note `timedelta.seconds` is the seconds *component*
of the normalised timedelta — an integer in `[0, 86400)` equal to the
difference modulo one day (floor convention) — not the total separation
`total_seconds()`. -/

/-- The dispersion loop of `standard` / `_get_fuzzy_wavelength`: start from
`n = 1200.0` and overwrite `n` for every listed value occurring in the
disperser name (so the last match wins). -/
def gmosDispersionN (disp : String) : ℚ :=
  [("1200", (1200 : ℚ)), ("600", 600), ("831", 831), ("400", 400), ("150", 150)].foldl
    (fun n dv => if strContains disp dv.1 then dv.2 else n) 1200

/-- `tolerance = 200 * dispersion` with `dispersion = 0.03/n`. -/
def gmosFuzzyTolerance (disp : String) : ℚ := 200 * ((3/100) / gmosDispersionN disp)

/-- Python `timedelta.seconds`: the seconds component of the normalised
timedelta, i.e. the difference modulo 86400 with floor convention (always
in `[0, 86400)`). -/
def pyTimedeltaSeconds (delta : Int) : Int := Int.emod delta 86400

/-- The `score` closure of `standard`/`slitillum`:
`abs(float(header.central_wavelength) - wavelength) / tolerance +
abs((header.ut_datetime - ut_datetime).seconds) / (30.0*24.0*60.0*60.0)`.
Rows reaching the score passed the `between` filter, so their
`central_wavelength` is non-null (on a null it would raise). -/
def gmosStandardScore (d : Descr) (cw tol : ℚ) (r : Row) : ℚ :=
  |r.central_wavelength.getD 0 - cw| / tol +
    |(pyTimedeltaSeconds (r.ut - d.ut) : ℚ)| / 2592000

/-- The coarse query of `standard`: `standard(processed)`, the wavelength
`between` band (inclusive), `match_descriptors(Header.instrument,
Gmos.disperser, Gmos.detector_x_bin, Gmos.detector_y_bin,
Gmos.filter_name)`, and `max_interval(days=183)`. -/
def gmosStandardQuery (d : Descr) (pm : Option String) (processed : Bool)
    (lower upper : ℚ) : CalQuery :=
  (((CalQuery.init d pm).standard processed
    |>.add_filters (fun r =>
        match r.central_wavelength with
        | some w => decide (lower ≤ w) && decide (w ≤ upper)
        | none => false)
    |>.add_filters (fun r => r.instrument == d.instrument)
    |>.add_filters (fun r => r.disperser == d.disperser)
    |>.add_filters (fun r => r.detector_x_bin == d.detector_x_bin)
    |>.add_filters (fun r => r.detector_y_bin == d.detector_y_bin)
    |>.add_filters (fun r => r.filter_name == d.filter_name))
    |>.max_interval 183)

/-- `CalibrationGMOS.standard`.  A null disperser or central wavelength
raises `TypeError` (`'1200' in None` resp. `float(None)`). -/
def CalibrationGMOS.standard (d : Descr) (pm : Option String) (catalog : List Row)
    (processed : Bool) (howmanyOpt : Option Nat) : Except PyErr (List Row) :=
  let howmany := howmanyOpt.getD 1
  match d.disperser, d.central_wavelength with
  | some disp, some cw =>
    let tol := gmosFuzzyTolerance disp
    let results := (gmosStandardQuery d pm processed (cw - tol) (cw + tol)).all
      catalog 1000 (defaultLe d)
    .ok ((isortBy (fun a b =>
      decide (gmosStandardScore d cw tol a ≤ gmosStandardScore d cw tol b)) results).take howmany)
  | _, _ => .error .typeError

/-- The coarse query of `slitillum`: as for `standard` but with the
`slitillum(processed)` reduction filter. -/
def gmosSlitillumQuery (d : Descr) (pm : Option String) (processed : Bool)
    (lower upper : ℚ) : CalQuery :=
  (((CalQuery.init d pm).slitillum processed
    |>.add_filters (fun r =>
        match r.central_wavelength with
        | some w => decide (lower ≤ w) && decide (w ≤ upper)
        | none => false)
    |>.add_filters (fun r => r.instrument == d.instrument)
    |>.add_filters (fun r => r.disperser == d.disperser)
    |>.add_filters (fun r => r.detector_x_bin == d.detector_x_bin)
    |>.add_filters (fun r => r.detector_y_bin == d.detector_y_bin)
    |>.add_filters (fun r => r.filter_name == d.filter_name))
    |>.max_interval 183)

/-- `CalibrationGMOS.slitillum`: `_get_fuzzy_wavelength`, the coarse query,
then the same score sort and slice. -/
def CalibrationGMOS.slitillum (d : Descr) (pm : Option String) (catalog : List Row)
    (processed : Bool) (howmanyOpt : Option Nat) : Except PyErr (List Row) :=
  let howmany := howmanyOpt.getD 1
  match d.disperser, d.central_wavelength with
  | some disp, some cw =>
    let tol := gmosFuzzyTolerance disp
    let results := (gmosSlitillumQuery d pm processed (cw - tol) (cw + tol)).all
      catalog 1000 (defaultLe d)
    .ok ((isortBy (fun a b =>
      decide (gmosStandardScore d cw tol a ≤ gmosStandardScore d cw tol b)) results).take howmany)
  | _, _ => .error .typeError

/-- The score as the specification describes it: `|Δλ|/tolerance +
|Δt_seconds|/(30·86400)` with `Δt_seconds` the candidate's *full* time
separation from the target in seconds.  Modelled from the spec for
comparison with `gmosStandardScore`. -/
def standardScoreSpec (d : Descr) (cw tol : ℚ) (r : Row) : ℚ :=
  |r.central_wavelength.getD 0 - cw| / tol + (((r.ut - d.ut).natAbs : ℚ)) / 2592000

/-! ### The `bpm` rules and `Calibration.get_query` (claim C4)

`Calibration.get_query` (calibration.py:593-599) is declared as
`def get_query(self):` — it accepts *no* keyword argument.  The `bpm` rules
of GMOS (calibration_gmos.py:409), GNIRS (calibration_gnirs.py:111), GSAOI
(calibration_gsaoi.py:56), MICHELLE (calibration_michelle.py:66) and NIFS
(calibration_nifs.py:77) all begin with
`query = self.get_query(include_engineering=True)`, and none of these five
classes overrides `get_query`; Python raises `TypeError: get_query() got an
unexpected keyword argument` before the query chain after it is touched.
(Only `CalibrationGHOST` defines a `get_query(self, include_engineering=False)`
override.) -/

/-- The keyword-parameter names of `Calibration.get_query` — the method is
`def get_query(self):`, so there are none. -/
def Calibration.get_query_kwnames : List String := []

/-- Python keyword-call check: a call with keyword arguments `kwnames`
succeeds only if every name is a declared parameter. -/
def pyAcceptsKwargs (params kwnames : List String) : Bool :=
  kwnames.all (fun k => decide (k ∈ params))

/-- `CalibrationGMOS.bpm` (calibration_gmos.py:386-419). -/
def CalibrationGMOS.bpm (d : Descr) (pm : Option String) (catalog : List Row)
    (processed : Bool) (howmanyOpt : Option Nat) : Except PyErr (List Row) :=
  -- `query = self.get_query(include_engineering=True).bpm(processed)
  --          .add_filters(Header.ut_datetime <= ..., Gmos.array_name.like(...))
  --          .match_descriptors(Header.instrument, Gmos.detector_x_bin, Gmos.detector_y_bin)`
  -- The keyword call fails the parameter check, so the chain is never evaluated.
  if pyAcceptsKwargs Calibration.get_query_kwnames ["include_engineering"] then
    .ok ((CalQuery.init d pm).all catalog (howmanyOpt.getD 1) (defaultLe d)) -- unreachable
  else .error .typeError

/-- `CalibrationGNIRS.bpm` (calibration_gnirs.py:90-119). -/
def CalibrationGNIRS.bpm (d : Descr) (pm : Option String) (catalog : List Row)
    (processed : Bool) (howmanyOpt : Option Nat) : Except PyErr (List Row) :=
  if pyAcceptsKwargs Calibration.get_query_kwnames ["include_engineering"] then
    .ok ((CalQuery.init d pm).all catalog (howmanyOpt.getD 1) (defaultLe d)) -- unreachable
  else .error .typeError

/-- `CalibrationGSAOI.bpm` (calibration_gsaoi.py:30-65). -/
def CalibrationGSAOI.bpm (d : Descr) (pm : Option String) (catalog : List Row)
    (processed : Bool) (howmanyOpt : Option Nat) : Except PyErr (List Row) :=
  if pyAcceptsKwargs Calibration.get_query_kwnames ["include_engineering"] then
    .ok ((CalQuery.init d pm).all catalog (howmanyOpt.getD 1) (defaultLe d)) -- unreachable
  else .error .typeError

/-- `CalibrationMICHELLE.bpm` (calibration_michelle.py:40-75). -/
def CalibrationMICHELLE.bpm (d : Descr) (pm : Option String) (catalog : List Row)
    (processed : Bool) (howmanyOpt : Option Nat) : Except PyErr (List Row) :=
  if pyAcceptsKwargs Calibration.get_query_kwnames ["include_engineering"] then
    .ok ((CalQuery.init d pm).all catalog (howmanyOpt.getD 1) (defaultLe d)) -- unreachable
  else .error .typeError

/-- `CalibrationNIFS.bpm` (calibration_nifs.py:50-86). -/
def CalibrationNIFS.bpm (d : Descr) (pm : Option String) (catalog : List Row)
    (processed : Bool) (howmanyOpt : Option Nat) : Except PyErr (List Row) :=
  if pyAcceptsKwargs Calibration.get_query_kwnames ["include_engineering"] then
    .ok ((CalQuery.init d pm).all catalog (howmanyOpt.getD 1) (defaultLe d)) -- unreachable
  else .error .typeError

/-! ### Instrument dispatch and the base rule stubs (claim C10)

`get_cal_object` (cal/__init__.py:41-94) resolves the instrument through
the `inst_class` dictionary with `Calibration` as the default for unknown
instruments.  The base `Calibration` class (calibration.py:619-701) defines
every calibration-type method as a stub that returns the empty list (`# Not
defined for this instrument`); no `UnsupportedCalibration` error type
exists anywhere in the package. -/

/-- The values of the `inst_class` dictionary. -/
inductive CalClass where
  | base | f2 | ghost | gmos | gnirs | gpi | gsaoi | michelle | nici | nifs | niri
  deriving DecidableEq, Repr

/-- `inst_class.get(instrument, Calibration)`. -/
def inst_class (instrument : String) : CalClass :=
  if instrument = "F2" then .f2
  else if instrument = "GHOST" then .ghost
  else if instrument = "GMOS" then .gmos
  else if instrument = "GMOS-S" then .gmos
  else if instrument = "GMOS-N" then .gmos
  else if instrument = "GNIRS" then .gnirs
  else if instrument = "GPI" then .gpi
  else if instrument = "GSAOI" then .gsaoi
  else if instrument = "michelle" then .michelle
  else if instrument = "NICI" then .nici
  else if instrument = "NIFS" then .nifs
  else if instrument = "NIRI" then .niri
  else .base

/-- `Calibration.bias` (calibration.py:619-621): `# Not defined for this
instrument` — returns the empty list, not an error. -/
def Calibration.bias (d : Descr) (pm : Option String) (catalog : List Row)
    (processed : Bool) (howmanyOpt : Option Nat) : List Row := []

/-- `Calibration.dark` (calibration.py:623-625): stub returning `[]`. -/
def Calibration.dark (d : Descr) (pm : Option String) (catalog : List Row)
    (processed : Bool) (howmanyOpt : Option Nat) : List Row := []

/-- `Calibration.flat` (calibration.py:627-629): stub returning `[]`. -/
def Calibration.flat (d : Descr) (pm : Option String) (catalog : List Row)
    (processed : Bool) (howmanyOpt : Option Nat) : List Row := []

/-- `Calibration.arc` (calibration.py:631-633): stub returning `[]`. -/
def Calibration.arc (d : Descr) (pm : Option String) (catalog : List Row)
    (processed : Bool) (howmanyOpt : Option Nat) : List Row := []

/-! ### The association orchestrator (`associate_calibrations.py`)

`associate_cals` walks the calibration types for each target header,
invokes the applicable rules (through the `processed_X ↦ (X, processed=True)`
alias map), deduplicates by `Header.id` keeping the first occurrence,
recurses once for `caltype='all'`, and at the top level re-sorts with
`sort_cal_fn`.

The embedding abstracts over the calibration-type list (`cal_types` comes
from the external `gemini_obs_db` package) and over the per-target
calibration object: `CalObj.applicable` is the rule set's applicability
list, `CalObj.run ct` the rows produced by invoking the (alias-mapped) rule
for calibration type `ct`.  Result elements are represented by their
`Header` row: with `full_query` the Python list holds `(Header, DiskFile,
File)` tuples, without it bare `Header`s; the only behavioural difference
is in `sort_cal_fn`, which subscripts the element. -/

structure CalObj where
  applicable : List String
  run : String → List Row

/-- The gathering double loop of `associate_cals`: for each header, for
each `ct` in the calibration-type list, invoke the rule when `ct` is
applicable and was requested (`caltype == 'all'` or equal). -/
def orchestrateGather (ctList : List String) (calObjOf : Row → CalObj)
    (caltype : String) (headers : List Row) : List Row :=
  headers.flatMap (fun h =>
    (ctList.filter (fun ct =>
      decide (ct ∈ (calObjOf h).applicable) && (caltype == "all" || caltype == ct))).flatMap
      (calObjOf h).run)

/-- The dedup loop: keep a row only if its `Header.id` was not seen
before. -/
def dedupByHid (seen : List Nat) : List Row → List Row
  | [] => []
  | r :: rs =>
    if r.hid ∈ seen then dedupByHid seen rs
    else r :: dedupByHid (r.hid :: seen) rs

/-- `sort_cal_fn` of `associate_cals`: the key is `"BPM"` when
`a[0].observation_type == "BPM"`, computed inside `try/except` with a bare
`except` returning `"X"`.  With `full_query` the element is a
`(Header, DiskFile, File)` tuple and `a[0]` is its `Header`; without
`full_query` the element is a bare `Header`, `a[0]` raises `TypeError`,
and the handler makes the key `"X"` for every element. -/
def sort_cal_key (full_query : Bool) (r : Row) : String :=
  if full_query then (if r.observation_type == "BPM" then "BPM" else "X") else "X"

/-- `shortlist.sort(key=sort_cal_fn)`: Python's sort is stable and the key
takes only the two values `"BPM" < "X"`, so the sort moves the `"BPM"`-keyed
elements to the front, preserving relative order within each class. -/
def bpmFirstSort (full_query : Bool) (l : List Row) : List Row :=
  l.filter (fun r => sort_cal_key full_query r == "BPM") ++
    l.filter (fun r => !(sort_cal_key full_query r == "BPM"))

/-- `associate_cals` (associate_calibrations.py:24-109). -/
def associate_cals (ctList : List String) (calObjOf : Row → CalObj) (headers : List Row)
    (caltype : String) (recurse_level : Nat) (full_query : Bool) : List Row :=
  let shortlist := dedupByHid [] (orchestrateGather ctList calObjOf caltype headers)
  let ids := shortlist.map (·.hid)
  let withrec :=
    if h : caltype = "all" ∧ recurse_level < 1 ∧ shortlist ≠ [] then
      shortlist ++ (associate_cals ctList calObjOf shortlist caltype (recurse_level + 1)
        full_query).filter (fun c => decide (c.hid ∉ ids))
    else shortlist
  if recurse_level = 0 then bpmFirstSort full_query withrec else withrec
termination_by 1 - recurse_level
decreasing_by omega

/-! ### The cache-backed variant (`associate_calibrations.py:113-191`)

`associate_cals_from_cache` reads the precomputed `CalCache` table instead
of invoking rules.  A table entry is `(obs_hid, cal_hid, caltype, rank)`;
the entry's `cal` field below is the `Header` row the query joins through
`Header.id == CalCache.cal_hid` (so row-level `DISTINCT` coincides with
deduplication by `Header.id`).  The query orders by `(caltype, obs_hid,
rank)`; `orderEntriesLe` realises that `ORDER BY` deterministically.

The cache variant's `sort_cal_fn` has *no* `try/except`: its key calls
`len(a)`, which works on the `full_query` tuples but raises `TypeError` on
a bare `Header`, so a non-`full_query` top-level call with a nonempty
result raises; the embedding returns that outcome in `Except`. -/

structure CacheEntry where
  obs_hid : Nat
  caltype : String
  rank : Int
  cal : Row

/-- `ORDER BY CalCache.caltype, CalCache.obs_hid, CalCache.rank` as a
comparator (strings compared by character codes). -/
def cacheEntryLe (a b : CacheEntry) : Bool :=
  ((cmpNL (strCodes a.caltype) (strCodes b.caltype)).then
    ((cmpN a.obs_hid b.obs_hid).then (cmpI a.rank b.rank))) != .gt

/-- The `CalCache` query of `associate_cals_from_cache`: filter
`obs_hid IN obs_hids` (and `caltype == ct` unless `'all'`), order by
`(caltype, obs_hid, rank)`, select the joined `Header` rows distinct. -/
def calcacheLookup (table : List CacheEntry) (obs_hids : List Nat)
    (caltype : String) : List Row :=
  dedupByHid []
    ((isortBy cacheEntryLe (table.filter (fun e =>
      decide (e.obs_hid ∈ obs_hids) && (caltype == "all" || e.caltype == caltype)))).map
      (·.cal))

/-- The top-level `calheaders.sort(key=sort_cal_fn)` of the cache variant:
with `full_query` the key works on the tuples and the stable BPM-first sort
applies; without it the key's `len(a)` raises `TypeError` on any element,
so any nonempty list raises (an empty list is never passed to the key). -/
def cacheSortStep (full_query : Bool) (w : Except PyErr (List Row)) :
    Except PyErr (List Row) :=
  match w with
  | .error e => .error e
  | .ok l =>
    if full_query then .ok (bpmFirstSort true l)
    else if l.isEmpty then .ok l
    else .error .typeError

/-- `associate_cals_from_cache`.  The recursion cap is 4 instead of 1; the
top-level sort is `cacheSortStep`. -/
def associate_cals_from_cache (table : List CacheEntry) (headers : List Row)
    (caltype : String) (recurse_level : Nat) (full_query : Bool) :
    Except PyErr (List Row) :=
  let calheaders := calcacheLookup table (headers.map (·.hid)) caltype
  let ids := calheaders.map (·.hid)
  let withrec : Except PyErr (List Row) :=
    if h : caltype = "all" ∧ recurse_level < 4 ∧ calheaders ≠ [] then
      match associate_cals_from_cache table calheaders caltype (recurse_level + 1)
        full_query with
      | .error e => .error e
      | .ok extras => .ok (calheaders ++ extras.filter (fun c => decide (c.hid ∉ ids)))
    else .ok calheaders
  if recurse_level = 0 then cacheSortStep full_query withrec else withrec
termination_by 4 - recurse_level
decreasing_by omega

/-! ### `CalQuery.tolerance`, dynamic model (calibration.py:304-335)

The method iterates its keyword arguments; for each `descriptor=tol` it
evaluates `float(self.descr[descriptor])` and adds
`column > lo AND column < hi` filters, inside
`try: ... except KeyError: raise RuntimeError(...) except TypeError: pass`.

The exception routing this induces:
* descriptor missing from the bundle → `KeyError` → re-raised as
  `RuntimeError` ("No such descriptor ... defined in the header");
* value `None` (or any non-convertible non-string type) → `float` raises
  `TypeError` → caught, the predicate is skipped and the loop continues;
* a *string* value that does not parse as a number → `float` raises
  `ValueError`, which is **not** caught and propagates out of the rule;
* a numeric value (or numeric string) → filters
  `column > value - tol AND column < value + tol` are added (never
  satisfied by a NULL column);
* `getattr(Header, descriptor)` on a name that is not a header column
  raises `AttributeError`, which the code deliberately lets through.

Descriptor values are modelled by `PyVal`; the row side is dynamic too
(`String → Option ℚ`, `none` being SQL NULL) since `tolerance` addresses
columns by name. -/

inductive PyVal where
  | vNone
  | vNum (q : ℚ)
  | vStr (s : String)
  deriving DecidableEq, Repr

/-- Digit-string value. -/
def digitsToNat (cs : List Char) : Nat :=
  cs.foldl (fun acc c => acc * 10 + (c.toNat - 48)) 0

/-- Python `float(s)` on simple decimal literals
(`[+-]? digits [. digits]`); `none` models `ValueError` (the embedding
covers the decimal forms; scientific notation and the named constants are
out of scope, and every string the claims use is settled correctly by
this parser). -/
def parseFloat (s : String) : Option ℚ :=
  let cs := s.toList
  let signed : Bool × List Char :=
    match cs with
    | '-' :: rest => (true, rest)
    | '+' :: rest => (false, rest)
    | _ => (false, cs)
  let ip := signed.2.takeWhile Char.isDigit
  let rest := signed.2.dropWhile Char.isDigit
  let val : Option ℚ :=
    match rest with
    | [] => if ip.isEmpty then none else some (digitsToNat ip)
    | '.' :: fp =>
      if fp.all Char.isDigit && !(ip.isEmpty && fp.isEmpty) then
        some ((digitsToNat ip : ℚ) + (digitsToNat fp : ℚ) / (10 ^ fp.length))
      else none
    | _ => none
  val.map (fun v => if signed.1 then -v else v)

/-- Python `float(value)` on a descriptor value. -/
def floatOfPy : PyVal → Except PyErr ℚ
  | .vNone => .error .typeError
  | .vNum q => .ok q
  | .vStr s =>
    match parseFloat s with
    | some q => .ok q
    | none => .error .valueError

/-- The `for descriptor, tol in kw.items()` loop of `tolerance`, threading
the accumulated row predicate. -/
def toleranceLoop (descr : String → Option PyVal) (headerCols : List String) :
    List (String × ℚ) → ((String → Option ℚ) → Bool) →
      Except PyErr ((String → Option ℚ) → Bool)
  | [], pred => .ok pred
  | (name, tol) :: rest, pred =>
    match descr name with
    | none => .error .runtimeError
    | some v =>
      match floatOfPy v with
      | .error .typeError => toleranceLoop descr headerCols rest pred
      | .error e => .error e
      | .ok x =>
        if name ∈ headerCols then
          toleranceLoop descr headerCols rest
            (fun r => pred r &&
              (match r name with
               | some y => decide (x - tol < y) && decide (y < x + tol)
               | none => false))
        else .error .attributeError

/-- `CalQuery.tolerance(condition=..., **kw)`, dynamic model. -/
def tolerance_dyn (descr : String → Option PyVal) (headerCols : List String)
    (condition : Bool) (kw : List (String × ℚ))
    (pred : (String → Option ℚ) → Bool) : Except PyErr ((String → Option ℚ) → Bool) :=
  if condition then toleranceLoop descr headerCols kw pred else .ok pred

/-! ### Support lemmas about `dedupByHid`, `associate_cals` and the cache
variant -/

theorem dedupByHid_sublist (seen : List Nat) :
    ∀ (l : List Row), List.Sublist (dedupByHid seen l) l := by
  intro l
  induction l generalizing seen with
  | nil => simp [dedupByHid]
  | cons r rs ih =>
    simp only [dedupByHid]
    split
    · exact (ih seen).cons r
    · exact (ih (r.hid :: seen)).cons₂ r

theorem dedupByHid_not_seen (seen : List Nat) : ∀ (l : List Row) (r : Row),
    r ∈ dedupByHid seen l → r.hid ∉ seen := by
  intro l
  induction l generalizing seen with
  | nil => simp [dedupByHid]
  | cons a rs ih =>
    intro r hr
    simp only [dedupByHid] at hr
    split at hr
    · exact ih seen r hr
    · rcases List.mem_cons.mp hr with h | h
      · subst h
        rename_i hnot
        simpa using hnot
      · intro hmem
        exact ih (a.hid :: seen) r h (List.mem_cons_of_mem _ hmem)

theorem dedupByHid_nodup (seen : List Nat) : ∀ (l : List Row),
    ((dedupByHid seen l).map (·.hid)).Nodup := by
  intro l
  induction l generalizing seen with
  | nil => simp [dedupByHid]
  | cons r rs ih =>
    simp only [dedupByHid]
    split
    · exact ih seen
    · simp only [List.map_cons, List.nodup_cons]
      refine ⟨?_, ih (r.hid :: seen)⟩
      intro hmem
      rcases List.mem_map.mp hmem with ⟨x, hx, hhid⟩
      exact dedupByHid_not_seen _ _ x hx (by simp [hhid])

theorem dedupByHid_covers (seen : List Nat) : ∀ (l : List Row) (r : Row), r ∈ l →
    r.hid ∈ seen ∨ r.hid ∈ (dedupByHid seen l).map (·.hid) := by
  intro l
  induction l generalizing seen with
  | nil => simp
  | cons a rs ih =>
    intro r hr
    simp only [dedupByHid]
    rcases List.mem_cons.mp hr with h | h
    · subst h
      by_cases hs : r.hid ∈ seen
      · left; exact hs
      · right
        rw [if_neg hs]
        simp
    · by_cases hs : a.hid ∈ seen
      · rw [if_pos hs]
        exact ih seen r h
      · rw [if_neg hs]
        rcases ih (a.hid :: seen) r h with hmem | hmem
        · rcases List.mem_cons.mp hmem with he | he
          · right; simp [he]
          · left; exact he
        · right
          simpa using Or.inr hmem

theorem dedupByHid_first_occurrence (seen : List Nat) : ∀ (l : List Row) (r : Row),
    r ∈ dedupByHid seen l → (l.filter (fun x => x.hid == r.hid)).head? = some r := by
  intro l
  induction l generalizing seen with
  | nil => simp [dedupByHid]
  | cons a rs ih =>
    intro r hr
    simp only [dedupByHid] at hr
    split at hr
    · rename_i hs
      have hne : ¬(a.hid == r.hid) = true := by
        intro hcon
        have := dedupByHid_not_seen seen rs r hr
        rw [← beq_iff_eq.mp hcon] at this
        exact this (by simpa using hs)
      simp only [List.filter_cons, hne]
      simp only [Bool.false_eq_true, if_false]
      exact ih seen r hr
    · rename_i hs
      rcases List.mem_cons.mp hr with h | h
      · subst h
        simp [List.filter_cons]
      · have hne : ¬(a.hid == r.hid) = true := by
          intro hcon
          have := dedupByHid_not_seen (a.hid :: seen) rs r h
          rw [← beq_iff_eq.mp hcon] at this
          simp at this
        simp only [List.filter_cons, hne]
        simp only [Bool.false_eq_true, if_false]
        exact ih (a.hid :: seen) r h

/-- Unfolding of `associate_cals` at recursion levels ≥ 1: the recursion
guard `recurse_level < 1` fails and the top-level sort does not apply, so
the call returns exactly the deduplicated gathered rows. -/
theorem associate_cals_deep (ctList : List String) (calObjOf : Row → CalObj)
    (headers : List Row) (caltype : String) (rl : Nat) (fq : Bool) (h : 1 ≤ rl) :
    associate_cals ctList calObjOf headers caltype rl fq =
      dedupByHid [] (orchestrateGather ctList calObjOf caltype headers) := by
  rw [associate_cals]
  have h1 : ¬(caltype = "all" ∧ rl < 1 ∧
      dedupByHid [] (orchestrateGather ctList calObjOf caltype headers) ≠ []) := by
    rintro ⟨-, hlt, -⟩
    omega
  rw [dif_neg h1, if_neg (by omega)]

/-- Unfolding of `associate_cals` when the caltype is not `'all'`: no
recursion happens at any level (only the top-level sort). -/
theorem associate_cals_not_all (ctList : List String) (calObjOf : Row → CalObj)
    (headers : List Row) (caltype : String) (rl : Nat) (fq : Bool) (h : caltype ≠ "all") :
    associate_cals ctList calObjOf headers caltype rl fq =
      (if rl = 0 then
        bpmFirstSort fq (dedupByHid [] (orchestrateGather ctList calObjOf caltype headers))
      else dedupByHid [] (orchestrateGather ctList calObjOf caltype headers)) := by
  rw [associate_cals]
  have h1 : ¬(caltype = "all" ∧ rl < 1 ∧
      dedupByHid [] (orchestrateGather ctList calObjOf caltype headers) ≠ []) := by
    rintro ⟨hall, -, -⟩
    exact h hall
  rw [dif_neg h1]

/-- The pre-sort value of a top-level `associate_cals` call: the
deduplicated gathered rows followed by the recursively found rows whose
`Header.id` is new. -/
def associate_cals_presort (ctList : List String) (calObjOf : Row → CalObj)
    (headers : List Row) (caltype : String) (fq : Bool) : List Row :=
  let shortlist := dedupByHid [] (orchestrateGather ctList calObjOf caltype headers)
  let ids := shortlist.map (·.hid)
  if h : caltype = "all" ∧ (0 : Nat) < 1 ∧ shortlist ≠ [] then
    shortlist ++ (associate_cals ctList calObjOf shortlist caltype (0 + 1) fq).filter
      (fun c => decide (c.hid ∉ ids))
  else shortlist

/-- A top-level `associate_cals` call is the `sort_cal_fn` sort of its
pre-sort value. -/
theorem associate_cals_zero (ctList : List String) (calObjOf : Row → CalObj)
    (headers : List Row) (caltype : String) (fq : Bool) :
    associate_cals ctList calObjOf headers caltype 0 fq =
      bpmFirstSort fq (associate_cals_presort ctList calObjOf headers caltype fq) := by
  rw [associate_cals]
  rfl

/-- With a constant sort key (`full_query = False`) the stable sort leaves
the list unchanged. -/
theorem bpmFirstSort_false (l : List Row) : bpmFirstSort false l = l := by
  simp [bpmFirstSort, sort_cal_key]

theorem bpmFirstSort_perm (fq : Bool) (l : List Row) : (bpmFirstSort fq l).Perm l := by
  simpa [bpmFirstSort] using List.filter_append_perm _ l

/-- The `Header.id`s of the pre-sort list are distinct. -/
theorem associate_cals_presort_nodup (ctList : List String) (calObjOf : Row → CalObj)
    (headers : List Row) (caltype : String) (fq : Bool) :
    ((associate_cals_presort ctList calObjOf headers caltype fq).map (·.hid)).Nodup := by
  unfold associate_cals_presort
  dsimp only
  split
  · rename_i hc
    simp only [List.map_append, List.nodup_append]
    refine ⟨dedupByHid_nodup [] _, ?_, ?_⟩
    · rw [associate_cals_deep _ _ _ _ _ _ (le_refl 1)]
      have base := dedupByHid_nodup ([] : List Nat)
        (orchestrateGather ctList calObjOf caltype
          (dedupByHid [] (orchestrateGather ctList calObjOf caltype headers)))
      exact base.sublist ((List.filter_sublist _).map (fun r : Row => r.hid))
    · intro n hn hm
      rcases List.mem_map.mp hm with ⟨x, hx, hhid⟩
      have hfilter := List.of_mem_filter hx
      subst hhid
      rw [decide_eq_true_eq] at hfilter
      exact hfilter hn
  · exact dedupByHid_nodup [] _

/-- The `Header.id`s of any `associate_cals` result are distinct. -/
theorem associate_cals_nodup (ctList : List String) (calObjOf : Row → CalObj)
    (headers : List Row) (caltype : String) (rl : Nat) (fq : Bool) :
    ((associate_cals ctList calObjOf headers caltype rl fq).map (·.hid)).Nodup := by
  rcases Nat.eq_zero_or_pos rl with h0 | h1
  · subst h0
    rw [associate_cals_zero]
    have hperm := (bpmFirstSort_perm fq
      (associate_cals_presort ctList calObjOf headers caltype fq)).map (·.hid)
    exact hperm.nodup_iff.mpr (associate_cals_presort_nodup _ _ _ _ _)
  · rw [associate_cals_deep _ _ _ _ _ _ h1]
    exact dedupByHid_nodup [] _

/-- Unfolding of `associate_cals_from_cache` at recursion levels ≥ 4: the
guard `recurse_level < 4` fails, the level is not 0, so the call returns
exactly the (deduplicated, ordered) cache-table lookup. -/
theorem associate_cals_from_cache_deep (table : List CacheEntry) (headers : List Row)
    (caltype : String) (rl : Nat) (fq : Bool) (h : 4 ≤ rl) :
    associate_cals_from_cache table headers caltype rl fq =
      .ok (calcacheLookup table (headers.map (·.hid)) caltype) := by
  rw [associate_cals_from_cache]
  have h1 : ¬(caltype = "all" ∧ rl < 4 ∧
      calcacheLookup table (headers.map (·.hid)) caltype ≠ []) := by
    rintro ⟨-, hlt, -⟩
    omega
  rw [dif_neg h1, if_neg (by omega)]

/-- Unfolding of `associate_cals_from_cache` at levels 1 ≤ rl < 4 with
`caltype='all'` and a nonempty lookup: the function recurses on the looked-up
headers and appends the recursively found rows with new `Header.id`s. -/
theorem associate_cals_from_cache_recurse (table : List CacheEntry) (headers : List Row)
    (rl : Nat) (fq : Bool) (h1 : 1 ≤ rl) (h4 : rl < 4)
    (hne : calcacheLookup table (headers.map (·.hid)) "all" ≠ []) :
    associate_cals_from_cache table headers "all" rl fq =
      Except.map (fun extras =>
        calcacheLookup table (headers.map (·.hid)) "all" ++
          extras.filter (fun c =>
            decide (c.hid ∉ (calcacheLookup table (headers.map (·.hid)) "all").map (·.hid))))
        (associate_cals_from_cache table
          (calcacheLookup table (headers.map (·.hid)) "all") "all" (rl + 1) fq) := by
  rw [associate_cals_from_cache]
  rw [dif_pos ⟨rfl, h4, hne⟩, if_neg (by omega)]
  cases associate_cals_from_cache table
      (calcacheLookup table (headers.map (·.hid)) "all") "all" (rl + 1) fq with
  | error e => rfl
  | ok extras => rfl

/-- A successful `cacheSortStep` result is either the BPM-first sort of the
incoming list or the incoming list itself. -/
theorem cacheSortStep_ok (fq : Bool) (w : Except PyErr (List Row)) (l : List Row)
    (h : cacheSortStep fq w = .ok l) :
    ∃ x, w = .ok x ∧ (l = bpmFirstSort true x ∨ l = x) := by
  cases w with
  | error e => simp [cacheSortStep] at h
  | ok x =>
    refine ⟨x, rfl, ?_⟩
    cases fq with
    | true =>
      simp only [cacheSortStep, if_pos rfl] at h
      left
      exact (Except.ok.inj h).symm
    | false =>
      simp only [cacheSortStep, Bool.false_eq_true, if_false] at h
      by_cases hemp : x.isEmpty = true
      · rw [if_pos hemp] at h
        right
        exact (Except.ok.inj h).symm
      · rw [if_neg hemp] at h
        simp at h

/-- The `Header.id`s of any `.ok` result of `associate_cals_from_cache` are
distinct. -/
theorem associate_cals_from_cache_nodup_aux (fuel : Nat) : ∀ (table : List CacheEntry)
    (headers : List Row) (caltype : String) (rl : Nat) (fq : Bool) (l : List Row),
    4 - rl ≤ fuel →
    associate_cals_from_cache table headers caltype rl fq = .ok l →
    (l.map (·.hid)).Nodup := by
  induction fuel with
  | zero =>
    intro table headers caltype rl fq l hf hok
    have h4 : 4 ≤ rl := by omega
    rw [associate_cals_from_cache_deep _ _ _ _ _ h4] at hok
    cases hok
    exact dedupByHid_nodup [] _
  | succ fuel ih =>
    intro table headers caltype rl fq l hf hok
    rw [associate_cals_from_cache] at hok
    set B := calcacheLookup table (headers.map (·.hid)) caltype with hB
    have hBnodup : (B.map (·.hid)).Nodup := dedupByHid_nodup [] _
    have hwith : ∀ (x : List Row),
        (if h : caltype = "all" ∧ rl < 4 ∧ B ≠ [] then
          match associate_cals_from_cache table B caltype (rl + 1) fq with
          | .error e => Except.error e
          | .ok extras =>
              Except.ok (B ++ extras.filter (fun c => decide (c.hid ∉ B.map (·.hid))))
        else Except.ok B) = .ok x → (x.map (·.hid)).Nodup := by
      intro x hx
      by_cases hcond : caltype = "all" ∧ rl < 4 ∧ B ≠ []
      · rw [dif_pos hcond] at hx
        rcases hrec : associate_cals_from_cache table B caltype (rl + 1) fq with e | extras
        · rw [hrec] at hx
          simp at hx
        · rw [hrec] at hx
          have hext : (extras.map (·.hid)).Nodup :=
            ih table B caltype (rl + 1) fq extras (by omega) hrec
          cases hx
          simp only [List.map_append, List.nodup_append]
          refine ⟨hBnodup, hext.sublist ((List.filter_sublist _).map (fun r : Row => r.hid)),
            ?_⟩
          intro n hn hm
          rcases List.mem_map.mp hm with ⟨c, hc, hhid⟩
          have hfilter := List.of_mem_filter hc
          subst hhid
          rw [decide_eq_true_eq] at hfilter
          exact hfilter hn
      · rw [dif_neg hcond] at hx
        cases hx
        exact hBnodup
    by_cases hrl : rl = 0
    · subst hrl
      rw [if_pos rfl] at hok
      rcases cacheSortStep_ok fq _ l hok with ⟨x, hw, hl⟩
      have hx := hwith x hw
      rcases hl with hl | hl
      · subst hl
        exact ((bpmFirstSort_perm true x).map (·.hid)).nodup_iff.mpr hx
      · subst hl
        exact hx
    · rw [if_neg hrl] at hok
      exact hwith l hok

/-! ### Closure of `Built` under the derived filter methods -/

theorem built_reduction {d : Descr} {pm : Option String} {q : CalQuery}
    (h : Built d pm q) (red : String) : Built d pm (q.reduction red) :=
  Built.add_filters q _ h

theorem built_raw {d : Descr} {pm : Option String} {q : CalQuery}
    (h : Built d pm q) : Built d pm q.raw :=
  built_reduction h "RAW"

theorem built_observation_type {d : Descr} {pm : Option String} {q : CalQuery}
    (h : Built d pm q) (ot : String) : Built d pm (q.observation_type ot) :=
  Built.add_filters q _ h

theorem built_raw_or_processed {d : Descr} {pm : Option String} {q : CalQuery}
    (h : Built d pm q) (name : String) (processed : Bool) :
    Built d pm (q.raw_or_processed name processed) := by
  unfold CalQuery.raw_or_processed
  split
  · exact built_reduction h _
  · exact built_observation_type (built_raw h) _

theorem built_raw_or_processed_by_types {d : Descr} {pm : Option String} {q : CalQuery}
    (h : Built d pm q) (name : String) (processed : Bool) :
    Built d pm (q.raw_or_processed_by_types name processed) := by
  unfold CalQuery.raw_or_processed_by_types
  split
  · exact built_reduction h _
  · exact Built.add_filters _ _ (built_raw h)

theorem built_arc {d : Descr} {pm : Option String} {q : CalQuery}
    (h : Built d pm q) (processed : Bool) : Built d pm (q.arc processed) :=
  built_raw_or_processed h "ARC" processed

theorem built_flat {d : Descr} {pm : Option String} {q : CalQuery}
    (h : Built d pm q) (processed : Bool) : Built d pm (q.flat processed) :=
  built_raw_or_processed h "FLAT" processed

theorem built_standard {d : Descr} {pm : Option String} {q : CalQuery}
    (h : Built d pm q) (processed : Bool) : Built d pm (q.standard processed) :=
  built_raw_or_processed h "STANDARD" processed

theorem built_slitillum {d : Descr} {pm : Option String} {q : CalQuery}
    (h : Built d pm q) (processed : Bool) : Built d pm (q.slitillum processed) :=
  built_raw_or_processed_by_types h "SLITILLUM" processed

theorem built_max_interval {d : Descr} {pm : Option String} {q : CalQuery}
    (h : Built d pm q) (days : Int) : Built d pm (q.max_interval days) :=
  Built.add_filters q _ h

theorem built_tolerance {d : Descr} {pm : Option String} {q : CalQuery}
    (h : Built d pm q) (target : Option ℚ) (col : Row → Option ℚ) (tol : ℚ)
    (condition : Bool) : Built d pm (q.tolerance target col tol condition) := by
  unfold CalQuery.tolerance
  split
  · cases target with
    | none => exact h
    | some t => exact Built.add_filters q _ h
  · exact h

theorem built_if_ {d : Descr} {pm : Option String} {q : CalQuery}
    (h : Built d pm q) (condition : Bool) (f : CalQuery → CalQuery)
    (hf : ∀ q₂ : CalQuery, Built d pm q₂ → Built d pm (f q₂)) :
    Built d pm (q.if_ condition f) := by
  unfold CalQuery.if_
  split
  · exact hf q h
  · exact h

/-- The GMOS arc query is built by chaining filter methods from the
constructor. -/
theorem built_gmosArcQuery (d : Descr) (pm : Option String) (processed : Bool) :
    Built d pm (gmosArcQuery d pm processed) := by
  unfold gmosArcQuery
  apply built_max_interval
  apply built_tolerance
  apply Built.add_filters
  apply Built.add_filters
  apply Built.add_filters
  apply Built.add_filters
  apply Built.add_filters
  apply Built.add_filters
  exact built_arc Built.init processed

/-! ### Shared concrete fixtures -/

/-- A baseline catalog row; claim-specific fixtures override fields. -/
def baseRow : Row :=
  { hid := 0, canonical := true, present := true, engineering := false,
    qa_state := "Pass", procmode := none, reduction := "RAW",
    observation_type := "OBJECT", observation_class := "science",
    observation_id := "GN-2019B-Q-1-1", types := "", instrument := "GMOS-N",
    ut := 0, central_wavelength := none, gcal_lamp := "",
    detector_roi_setting := "Full Frame", detector_binning := "1 1",
    disperser := none, filter_name := none, focal_plane_mask := none,
    amp_read_area := none, array_name := none, camera := none,
    well_depth_setting := none, detector_x_bin := none, detector_y_bin := none }

/-- A baseline descriptor bundle. -/
def baseDescr : Descr :=
  { instrument := "GMOS-N", observation_id := "GN-2019B-Q-1-1",
    spectroscopy := false, ut := 0, central_wavelength := none,
    detector_roi_setting := "Full Frame", detector_binning := "1 1",
    disperser := none, filter_name := none, focal_plane_mask := none,
    amp_read_area := none, array_name := none, camera := none,
    well_depth_setting := none, detector_x_bin := none, detector_y_bin := none }

/-! ### Claim C1 -/

/-- A spectroscopy GMOS target for claim C1. -/
def descrC1 : Descr :=
  { baseDescr with
    spectroscopy := true
    ut := 1000000
    central_wavelength := some (7/10)
    disperser := some "R400"
    filter_name := some "r"
    focal_plane_mask := some "1.0arcsec"
    amp_read_area := some "A1"
    detector_x_bin := some 2
    detector_y_bin := some 2 }

/-- A matching arc row that is canonical but **not present** on disk. -/
def rowC1 : Row :=
  { baseRow with
    hid := 11
    present := false
    observation_type := "ARC"
    ut := 1000500
    central_wavelength := some (7/10)
    disperser := some "R400"
    filter_name := some "r"
    focal_plane_mask := some "1.0arcsec"
    amp_read_area := some "A1"
    detector_x_bin := some 2
    detector_y_bin := some 2 }

/-- C1 counterexample: the claim states every returned row satisfies
`present = true`, but `CalQuery.__init__` installs no filter on
`DiskFile.present` (it is only an ordering preference), so the GMOS arc
rule returns a canonical, non-engineering, non-Fail row whose `present`
flag is false. -/
theorem canonical_filter_present_counterexample :
    CalibrationGMOS.arc descrC1 none [rowC1] false none = [rowC1] ∧
    rowC1.present = false := by
  exact ⟨by with_unfolding_all rfl, rfl⟩

/-- C1 (amended): every row returned by any rule query — any query built
from `CalQuery.__init__` by chaining filter methods, materialised with any
limit and ordering — is canonical, has `qa_state ≠ 'Fail'`, is not
engineering (the `include_engineering` opt-in never functions: no
`CalQuery` constructor argument exists for it, and every `bpm` rule's
attempt raises `TypeError`, cf. claim C4), and matches the `'sq'` procmode
when requested.  `present` is *not* guaranteed. -/
theorem canonical_filter_amended (d : Descr) (pm : Option String) (q : CalQuery)
    (hq : Built d pm q) (catalog : List Row) (limit : Nat) (le : Row → Row → Bool)
    (r : Row) (hr : r ∈ q.all catalog limit le) :
    r.canonical = true ∧ r.qa_state ≠ "Fail" ∧ r.engineering = false ∧
      (pm = some "sq" → r.procmode = some "sq") := by
  have h := (mem_all_pred hr).2
  have hinit := init_pred_iff.mp (hq.pred_base h)
  exact ⟨hinit.2.1, hinit.2.2.1, hinit.2.2.2, hinit.1⟩

/-- Witness for C1 (amended), at the GMOS arc query on a concrete
catalog. -/
theorem canonical_filter_amended_witness :
    rowC1.canonical = true ∧ rowC1.qa_state ≠ "Fail" ∧ rowC1.engineering = false ∧
      ((none : Option String) = some "sq" → rowC1.procmode = some "sq") :=
  canonical_filter_amended descrC1 none (gmosArcQuery descrC1 none false)
    (built_gmosArcQuery descrC1 none false) [rowC1] 1 (defaultLe descrC1) rowC1
    (by
      have h : (gmosArcQuery descrC1 none false).all [rowC1] 1 (defaultLe descrC1) =
          [rowC1] := by with_unfolding_all rfl
      rw [h]
      exact List.mem_singleton.mpr rfl)

/-! ### Claim C4 -/

/-- C4: for every descriptor bundle (and any procmode, catalog, `processed`
flag and `howmany`), the `bpm` rules of GMOS, GNIRS, GSAOI, MICHELLE and
NIFS raise `TypeError`: they call `self.get_query(include_engineering=True)`
but `Calibration.get_query` accepts no keyword argument, and none of these
classes overrides it.  The result is the error — independent of the catalog,
so no query is ever issued — and hence none of these rules ever opts into
engineering data. -/
theorem bpm_include_engineering_typeerror :
    ∀ (d : Descr) (pm : Option String) (catalog : List Row) (processed : Bool)
      (hm : Option Nat),
      CalibrationGMOS.bpm d pm catalog processed hm = .error .typeError ∧
      CalibrationGNIRS.bpm d pm catalog processed hm = .error .typeError ∧
      CalibrationGSAOI.bpm d pm catalog processed hm = .error .typeError ∧
      CalibrationMICHELLE.bpm d pm catalog processed hm = .error .typeError ∧
      CalibrationNIFS.bpm d pm catalog processed hm = .error .typeError :=
  fun _ _ _ _ _ => ⟨rfl, rfl, rfl, rfl, rfl⟩

/-! ### Claim C9 -/

/-- C9: `max_interval(days=N)` admits exactly the rows whose `ut_datetime`
differs from the target's by strictly less than `N·86400` seconds (on top
of the query it refines); a row at exactly `N` days separation is
excluded. -/
theorem max_interval_strict_window (q : CalQuery) (days : Int) (r : Row) :
    ((q.max_interval days).pred r = true ↔
      q.pred r = true ∧ |r.ut - q.descr.ut| < days * 86400) ∧
    (|r.ut - q.descr.ut| = days * 86400 → (q.max_interval days).pred r = false) := by
  have hiff : (q.max_interval days).pred r = true ↔
      q.pred r = true ∧ |r.ut - q.descr.ut| < days * 86400 := by
    simp only [CalQuery.max_interval, CalQuery.add_filters, Bool.and_eq_true,
      decide_eq_true_eq]
    constructor
    · rintro ⟨hq, h1, h2⟩
      refine ⟨hq, ?_⟩
      rw [abs_lt]
      omega
    · rintro ⟨hq, habs⟩
      rw [abs_lt] at habs
      exact ⟨hq, by omega, by omega⟩
  refine ⟨hiff, ?_⟩
  intro heq
  rw [Bool.eq_false_iff]
  intro hcon
  have h2 := (hiff.mp hcon).2
  rw [heq] at h2
  exact lt_irrefl _ h2

/-- A row at exactly one day separation from the C9 target. -/
def rowC9 : Row :=
  { baseRow with
    hid := 91
    ut := 86400 }

/-- Witness for C9: the boundary row (separation exactly `1·86400` s) is
excluded. -/
theorem max_interval_strict_window_witness :
    ((CalQuery.init baseDescr none).max_interval 1).pred rowC9 = false :=
  (max_interval_strict_window (CalQuery.init baseDescr none) 1 rowC9).2 (by decide)

/-! ### Claim C10 -/

/-- A spectroscopy GMOS bundle used to run a real rule against an empty
catalog. -/
def descrC10 : Descr :=
  { baseDescr with
    spectroscopy := true
    central_wavelength := some (7/10)
    disperser := some "R400"
    filter_name := some "r"
    focal_plane_mask := some "1.0arcsec"
    amp_read_area := some "A1"
    detector_x_bin := some 2
    detector_y_bin := some 2 }

/-- C10 counterexample: an unknown instrument resolves to the base
`Calibration` class, whose rules are stubs returning the empty list — the
very same value a supported rule produces when it finds nothing.  The
result type carries no error at all, so no typed `UnsupportedCalibration`
error reaches the caller (no such class exists in the package). -/
theorem unsupported_calibration_counterexample :
    inst_class "SCORPIO" = CalClass.base ∧
    Calibration.arc baseDescr none [] false none = ([] : List Row) ∧
    CalibrationGMOS.arc descrC10 none [] false none = ([] : List Row) ∧
    Calibration.arc baseDescr none [] false none =
      CalibrationGMOS.arc descrC10 none [] false none := by
  refine ⟨by decide, rfl, by decide, by decide⟩

/-- C10 (amended): every instrument name outside the dispatch table
resolves to the base rule set, and the base rules return the empty list
(never a typed error) — indistinguishable from a rule that ran and found
nothing. -/
theorem unsupported_calibration_amended :
    (∀ inst : String,
      inst ∉ (["F2", "GHOST", "GMOS", "GMOS-S", "GMOS-N", "GNIRS", "GPI", "GSAOI",
        "michelle", "NICI", "NIFS", "NIRI"] : List String) →
      inst_class inst = CalClass.base) ∧
    (∀ (d : Descr) (pm : Option String) (catalog : List Row) (processed : Bool)
       (hm : Option Nat),
      Calibration.bias d pm catalog processed hm = [] ∧
      Calibration.dark d pm catalog processed hm = [] ∧
      Calibration.flat d pm catalog processed hm = [] ∧
      Calibration.arc d pm catalog processed hm = []) := by
  constructor
  · intro inst hmem
    simp only [List.mem_cons, List.not_mem_nil, or_false, not_or] at hmem
    obtain ⟨h1, h2, h3, h4, h5, h6, h7, h8, h9, h10, h11, h12⟩ := hmem
    simp [inst_class, h1, h2, h3, h4, h5, h6, h7, h8, h9, h10, h11, h12]
  · intro d pm catalog processed hm
    exact ⟨rfl, rfl, rfl, rfl⟩

/-- Witness for C10 (amended) at a concrete unknown instrument. -/
theorem unsupported_calibration_amended_witness :
    inst_class "SCORPIO-2" = CalClass.base ∧
    Calibration.bias baseDescr none [baseRow] false none = [] :=
  ⟨unsupported_calibration_amended.1 "SCORPIO-2" (by decide),
   (unsupported_calibration_amended.2 baseDescr none [baseRow] false none).1⟩

/-! ### Claim C5 -/

theorem add_filters_pred_iff (q : CalQuery) (p : Row → Bool) (r : Row) :
    (q.add_filters p).pred r = true ↔ (q.pred r = true ∧ p r = true) := by
  simp [CalQuery.add_filters]

theorem add_filters_descr (q : CalQuery) (p : Row → Bool) :
    (q.add_filters p).descr = q.descr := rfl

theorem reduction_descr (q : CalQuery) (red : String) :
    (q.reduction red).descr = q.descr := rfl

theorem raw_or_processed_descr (q : CalQuery) (name : String) (processed : Bool) :
    (q.raw_or_processed name processed).descr = q.descr := by
  unfold CalQuery.raw_or_processed
  split <;> rfl

theorem arc_filter_descr (q : CalQuery) (processed : Bool) :
    (q.arc processed).descr = q.descr := raw_or_processed_descr q "ARC" processed

theorem tolerance_descr (q : CalQuery) (t : Option ℚ) (col : Row → Option ℚ)
    (tol : ℚ) (c : Bool) : (q.tolerance t col tol c).descr = q.descr := by
  unfold CalQuery.tolerance
  split
  · cases t <;> rfl
  · rfl

theorem init_descr (d : Descr) (pm : Option String) : (CalQuery.init d pm).descr = d := rfl

theorem tolerance_some_pred_iff (q : CalQuery) (t : ℚ) (col : Row → Option ℚ)
    (tol : ℚ) (r : Row) :
    (q.tolerance (some t) col tol true).pred r = true ↔
      (q.pred r = true ∧ ∃ y, col r = some y ∧ t - tol < y ∧ y < t + tol) := by
  unfold CalQuery.tolerance
  rw [if_pos rfl]
  rw [add_filters_pred_iff]
  constructor
  · rintro ⟨hq, hmatch⟩
    refine ⟨hq, ?_⟩
    rcases hcol : col r with _ | y
    · rw [hcol] at hmatch
      simp at hmatch
    · rw [hcol] at hmatch
      simp only [Bool.and_eq_true, decide_eq_true_eq] at hmatch
      exact ⟨y, rfl, hmatch⟩
  · rintro ⟨hq, y, hcol, h1, h2⟩
    refine ⟨hq, ?_⟩
    rw [hcol]
    simp only [Bool.and_eq_true, decide_eq_true_eq]
    exact ⟨h1, h2⟩

/-- C5: every row the GMOS arc rule returns for a spectroscopy target with
a known central wavelength matches the target's instrument, disperser,
filter, binning; its central wavelength is within ±0.001 μm; its
`ut_datetime` within 365 days; its focal-plane mask equals the target's
unless the target's is `'5.0arcsec'`, in which case any mask ending in
`'arcsec'` is admitted; and, for processed arcs, its ROI follows the
Full-Frame/Central-Spectrum widening policy. -/
theorem gmos_arc_only_matching (d : Descr) (pm : Option String) (catalog : List Row)
    (processed : Bool) (hm : Option Nat) (r : Row) (cw : ℚ)
    (hspec : d.spectroscopy = true) (hcw : d.central_wavelength = some cw)
    (hr : r ∈ CalibrationGMOS.arc d pm catalog processed hm) :
    r.instrument = d.instrument ∧
    r.disperser = d.disperser ∧
    r.filter_name = d.filter_name ∧
    r.detector_x_bin = d.detector_x_bin ∧
    r.detector_y_bin = d.detector_y_bin ∧
    (∃ w, r.central_wavelength = some w ∧ |w - cw| < 1/1000) ∧
    |r.ut - d.ut| < 365 * 86400 ∧
    (if d.focal_plane_mask ≠ some "5.0arcsec" then r.focal_plane_mask = d.focal_plane_mask
     else ∃ m, r.focal_plane_mask = some m ∧ strEndsWith m "arcsec" = true) ∧
    (processed = true →
      (d.detector_roi_setting = "Central Spectrum" →
        r.detector_roi_setting = "Full Frame" ∨ r.detector_roi_setting = "Central Spectrum") ∧
      (d.detector_roi_setting ≠ "Central Spectrum" →
        r.detector_roi_setting = "Full Frame")) := by
  unfold CalibrationGMOS.arc at hr
  rw [if_neg (by simp [hspec])] at hr
  have hp := (mem_all_pred hr).2
  simp only [gmosArcQuery, CalQuery.max_interval] at hp
  rw [add_filters_pred_iff] at hp
  obtain ⟨hp, hintv⟩ := hp
  rw [hcw, tolerance_some_pred_iff] at hp
  obtain ⟨hp, w, hwcol, hw1, hw2⟩ := hp
  rw [add_filters_pred_iff] at hp
  obtain ⟨hp, hybin⟩ := hp
  rw [add_filters_pred_iff] at hp
  obtain ⟨hp, hxbin⟩ := hp
  rw [add_filters_pred_iff] at hp
  obtain ⟨hp, hfilt⟩ := hp
  rw [add_filters_pred_iff] at hp
  obtain ⟨hp, hdisp⟩ := hp
  rw [add_filters_pred_iff] at hp
  obtain ⟨hp, hinst⟩ := hp
  rw [add_filters_pred_iff] at hp
  obtain ⟨-, harcf⟩ := hp
  refine ⟨beq_iff_eq.mp hinst, beq_iff_eq.mp hdisp, beq_iff_eq.mp hfilt,
    beq_iff_eq.mp hxbin, beq_iff_eq.mp hybin, ⟨w, hwcol, ?_⟩, ?_, ?_, ?_⟩
  · rw [abs_sub_lt_iff]
    constructor <;> linarith
  · simp only [tolerance_descr, add_filters_descr, arc_filter_descr, init_descr,
      Bool.and_eq_true, decide_eq_true_eq] at hintv
    rw [abs_lt]
    omega
  · unfold gmosArcFilters at harcf
    rw [Bool.and_eq_true] at harcf
    have hfpm := harcf.1
    by_cases h5 : d.focal_plane_mask = some "5.0arcsec"
    · rw [if_neg (by simp [h5])]
      rw [if_neg (by simp [h5])] at hfpm
      rcases hcol : r.focal_plane_mask with _ | m
      · rw [hcol] at hfpm
        simp at hfpm
      · rw [hcol] at hfpm
        exact ⟨m, rfl, hfpm⟩
    · rw [if_pos h5]
      rw [if_pos (by simpa using h5)] at hfpm
      exact beq_iff_eq.mp hfpm
  · intro hproc
    subst hproc
    unfold gmosArcFilters at harcf
    rw [Bool.and_eq_true] at harcf
    have hroi := harcf.2
    rw [if_pos rfl] at hroi
    constructor
    · intro hcs
      by_cases hff : d.detector_roi_setting = "Full Frame"
      · rw [hcs] at hff
        simp at hff
      · rw [if_neg (by simpa using hff), if_pos (by simpa using hcs)] at hroi
        rcases Bool.or_eq_true _ _ |>.mp hroi with h | h
        · exact Or.inl (beq_iff_eq.mp h)
        · exact Or.inr (beq_iff_eq.mp h)
    · intro hcs
      by_cases hff : d.detector_roi_setting = "Full Frame"
      · rw [if_pos (by simpa using hff)] at hroi
        exact beq_iff_eq.mp hroi
      · rw [if_neg (by simpa using hff), if_neg (by simpa using hcs)] at hroi
        exact beq_iff_eq.mp hroi

/-- A spectroscopy GMOS target for claim C5. -/
def descrC5 : Descr :=
  { baseDescr with
    spectroscopy := true
    ut := 5000000
    central_wavelength := some (3/4)
    disperser := some "B600"
    filter_name := some "g"
    focal_plane_mask := some "5.0arcsec"
    amp_read_area := some "B1"
    detector_x_bin := some 1
    detector_y_bin := some 1 }

/-- A matching raw arc row whose mask ends in `'arcsec'` (the target's mask
is the `'5.0arcsec'` special case). -/
def rowC5 : Row :=
  { baseRow with
    hid := 51
    observation_type := "ARC"
    ut := 5000000 + 86400
    central_wavelength := some (3/4)
    disperser := some "B600"
    filter_name := some "g"
    focal_plane_mask := some "2.0arcsec"
    amp_read_area := some "B1"
    detector_x_bin := some 1
    detector_y_bin := some 1 }

/-- Witness for C5 at a concrete target and catalog. -/
theorem gmos_arc_only_matching_witness :
    rowC5.instrument = descrC5.instrument ∧
    rowC5.disperser = descrC5.disperser ∧
    rowC5.filter_name = descrC5.filter_name ∧
    rowC5.detector_x_bin = descrC5.detector_x_bin ∧
    rowC5.detector_y_bin = descrC5.detector_y_bin ∧
    (∃ w, rowC5.central_wavelength = some w ∧ |w - 3/4| < 1/1000) ∧
    |rowC5.ut - descrC5.ut| < 365 * 86400 ∧
    (if descrC5.focal_plane_mask ≠ some "5.0arcsec" then
      rowC5.focal_plane_mask = descrC5.focal_plane_mask
     else ∃ m, rowC5.focal_plane_mask = some m ∧ strEndsWith m "arcsec" = true) ∧
    (false = true →
      (descrC5.detector_roi_setting = "Central Spectrum" →
        rowC5.detector_roi_setting = "Full Frame" ∨
          rowC5.detector_roi_setting = "Central Spectrum") ∧
      (descrC5.detector_roi_setting ≠ "Central Spectrum" →
        rowC5.detector_roi_setting = "Full Frame")) :=
  gmos_arc_only_matching descrC5 none [rowC5] false none rowC5 (3/4) rfl rfl
    (by
      have h : CalibrationGMOS.arc descrC5 none [rowC5] false none = [rowC5] := by
        with_unfolding_all rfl
      rw [h]
      exact List.mem_singleton.mpr rfl)

/-! ### Claim C8 -/

/-- The C8 bundle: `central_wavelength` holds the non-numeric string
`'blue'`. -/
def descrC8 : String → Option PyVal :=
  fun name => if name = "central_wavelength" then some (.vStr "blue") else none

/-- C8 counterexample: the claim states a non-numeric target value is
silently skipped, but `float('blue')` raises `ValueError`, which the
`except (KeyError, TypeError)` handlers do not catch: the tolerance call
aborts with the error instead of returning a query. -/
theorem tolerance_nonnumeric_string_counterexample :
    tolerance_dyn descrC8 ["central_wavelength"] true [("central_wavelength", 1/1000)]
      (fun _ => true) = .error .valueError ∧
    floatOfPy (.vStr "blue") = .error .valueError :=
  ⟨rfl, rfl⟩

/-- C8 (amended): with `condition=true`, a numeric target value adds the
strict symmetric window `|target − row| < δ` (never satisfied by a NULL
column); a `None` value is silently skipped (`float(None)` raises
`TypeError`, which is caught); a descriptor absent from the bundle raises
the configuration `RuntimeError`; but a *string* value that does not parse
as a number raises an uncaught `ValueError` that aborts the rule. -/
theorem tolerance_dyn_amended :
    (∀ (descr : String → Option PyVal) (cols : List String)
       (pred : (String → Option ℚ) → Bool) (name : String) (tol x : ℚ),
       descr name = some (.vNum x) → name ∈ cols →
       ∃ pred2, tolerance_dyn descr cols true [(name, tol)] pred = .ok pred2 ∧
         ∀ row, pred2 row = true ↔
           (pred row = true ∧ ∃ y, row name = some y ∧ |x - y| < tol)) ∧
    (∀ (descr : String → Option PyVal) (cols : List String)
       (pred : (String → Option ℚ) → Bool) (name : String) (tol : ℚ),
       descr name = some .vNone →
       tolerance_dyn descr cols true [(name, tol)] pred = .ok pred) ∧
    (∀ (descr : String → Option PyVal) (cols : List String)
       (pred : (String → Option ℚ) → Bool) (name : String) (tol : ℚ),
       descr name = none →
       tolerance_dyn descr cols true [(name, tol)] pred = .error .runtimeError) ∧
    (∀ (descr : String → Option PyVal) (cols : List String)
       (pred : (String → Option ℚ) → Bool) (name : String) (tol : ℚ) (s : String),
       descr name = some (.vStr s) → parseFloat s = none →
       tolerance_dyn descr cols true [(name, tol)] pred = .error .valueError) := by
  refine ⟨?_, ?_, ?_, ?_⟩
  · intro descr cols pred name tol x hval hcol
    unfold tolerance_dyn toleranceLoop
    rw [if_pos rfl, hval]
    simp only [floatOfPy]
    rw [if_pos hcol]
    refine ⟨_, rfl, ?_⟩
    intro row
    simp only [Bool.and_eq_true, decide_eq_true_eq]
    constructor
    · rintro ⟨hpred, hmatch⟩
      refine ⟨hpred, ?_⟩
      rcases hrow : row name with _ | y
      · rw [hrow] at hmatch
        simp at hmatch
      · rw [hrow] at hmatch
        simp only [Bool.and_eq_true, decide_eq_true_eq] at hmatch
        refine ⟨y, rfl, ?_⟩
        rw [abs_sub_lt_iff]
        constructor <;> linarith
    · rintro ⟨hpred, y, hrow, habs⟩
      refine ⟨hpred, ?_⟩
      rw [hrow]
      rw [abs_sub_lt_iff] at habs
      simp only [Bool.and_eq_true, decide_eq_true_eq]
      constructor <;> linarith
  · intro descr cols pred name tol hval
    unfold tolerance_dyn toleranceLoop
    rw [if_pos rfl, hval]
    rfl
  · intro descr cols pred name tol hval
    unfold tolerance_dyn toleranceLoop
    rw [if_pos rfl, hval]
  · intro descr cols pred name tol s hval hparse
    unfold tolerance_dyn toleranceLoop
    rw [if_pos rfl, hval]
    simp only [floatOfPy, hparse]

/-- A bundle with a numeric, a null and a missing descriptor, for the C8
witness. -/
def descrC8w : String → Option PyVal :=
  fun name =>
    if name = "exposure_time" then some (.vNum 10)
    else if name = "elevation" then some .vNone
    else none

/-- Witness for C8 (amended) at concrete bundles. -/
theorem tolerance_dyn_amended_witness :
    (∃ pred2, tolerance_dyn descrC8w ["exposure_time"] true [("exposure_time", 2)]
        (fun _ => true) = .ok pred2 ∧
      ∀ row, pred2 row = true ↔
        ((fun _ => true) row = true ∧ ∃ y, row "exposure_time" = some y ∧ |(10:ℚ) - y| < 2)) ∧
    tolerance_dyn descrC8w ["elevation"] true [("elevation", 2)] (fun _ => true) =
      .ok (fun _ => true) ∧
    tolerance_dyn descrC8w ["coadds"] true [("coadds", 2)] (fun _ => true) =
      .error .runtimeError ∧
    tolerance_dyn descrC8 ["central_wavelength"] true [("central_wavelength", 2)]
      (fun _ => true) = .error .valueError :=
  ⟨tolerance_dyn_amended.1 descrC8w ["exposure_time"] (fun _ => true) "exposure_time"
      2 10 rfl (by decide),
   tolerance_dyn_amended.2.1 descrC8w ["elevation"] (fun _ => true) "elevation" 2 rfl,
   tolerance_dyn_amended.2.2.1 descrC8w ["coadds"] (fun _ => true) "coadds" 2 rfl,
   tolerance_dyn_amended.2.2.2 descrC8 ["central_wavelength"] (fun _ => true)
     "central_wavelength" 2 "blue" rfl rfl⟩

/-! ### Claim C2 -/

/-- A non-BPM calibration row. -/
def rowC2x : Row := { baseRow with hid := 21 }

/-- A BPM calibration row. -/
def rowC2b : Row :=
  { baseRow with
    hid := 22
    observation_type := "BPM" }

/-- A calibration object whose `flat` rule returns a non-BPM row followed
by a BPM row. -/
def calObjC2 : Row → CalObj :=
  fun _ => { applicable := ["flat"], run := fun ct => if ct = "flat" then [rowC2x, rowC2b] else [] }

/-- C2 counterexample: with `full_query = False` the top-level re-sort never
lifts BPM rows — `sort_cal_fn` subscripts the element (`a[0]`), which raises
`TypeError` on a bare `Header` and the bare `except` maps every element to
the same key `"X"` — so a BPM row stays *behind* a non-BPM row, contradicting
the claim that BPM rows come first. -/
theorem orchestrator_bpm_sort_counterexample :
    associate_cals ["flat"] calObjC2 [baseRow] "flat" 0 false = [rowC2x, rowC2b] ∧
    rowC2b.observation_type = "BPM" ∧ rowC2x.observation_type ≠ "BPM" := by
  refine ⟨?_, rfl, by decide⟩
  rw [associate_cals_not_all _ _ _ _ _ _ (by decide)]
  decide

/-- C2 (amended): a top-level `associate_cals` result has pairwise-distinct
`Header.id`s; it is the stable two-bucket sort of its pre-sort value by
`sort_cal_fn`'s key, which lifts BPM rows to the front *only when
`full_query` is true* (with `full_query = False` the key is constant and
the order is unchanged); and the dedup step keeps exactly the first-seen
occurrence of each `Header.id`, in first-seen order. -/
theorem orchestrator_dedup_sort_amended :
    (∀ (ctList : List String) (calObjOf : Row → CalObj) (headers : List Row)
       (caltype : String) (fq : Bool),
      ((associate_cals ctList calObjOf headers caltype 0 fq).map (·.hid)).Nodup) ∧
    (∀ (ctList : List String) (calObjOf : Row → CalObj) (headers : List Row)
       (caltype : String) (fq : Bool),
      associate_cals ctList calObjOf headers caltype 0 fq =
        (associate_cals_presort ctList calObjOf headers caltype fq).filter
          (fun r => sort_cal_key fq r == "BPM") ++
        (associate_cals_presort ctList calObjOf headers caltype fq).filter
          (fun r => !(sort_cal_key fq r == "BPM"))) ∧
    (∀ (ctList : List String) (calObjOf : Row → CalObj) (headers : List Row)
       (caltype : String),
      associate_cals ctList calObjOf headers caltype 0 false =
        associate_cals_presort ctList calObjOf headers caltype false) ∧
    (∀ l : List Row,
      List.Sublist (dedupByHid [] l) l ∧
      ((dedupByHid [] l).map (·.hid)).Nodup ∧
      (∀ r ∈ l, r.hid ∈ (dedupByHid [] l).map (·.hid)) ∧
      (∀ r ∈ dedupByHid [] l, (l.filter (fun x => x.hid == r.hid)).head? = some r)) := by
  refine ⟨?_, ?_, ?_, ?_⟩
  · intro ctList calObjOf headers caltype fq
    exact associate_cals_nodup ctList calObjOf headers caltype 0 fq
  · intro ctList calObjOf headers caltype fq
    rw [associate_cals_zero]
    rfl
  · intro ctList calObjOf headers caltype
    rw [associate_cals_zero, bpmFirstSort_false]
  · intro l
    refine ⟨dedupByHid_sublist [] l, dedupByHid_nodup [] l, ?_, dedupByHid_first_occurrence [] l⟩
    intro r hr
    rcases dedupByHid_covers [] l r hr with h | h
    · simp at h
    · exact h

/-- Witness for C2 (amended): the first-seen dedup behaviour on a concrete
list with a duplicated `Header.id`. -/
theorem orchestrator_dedup_sort_amended_witness :
    rowC2x.hid ∈ (dedupByHid [] [rowC2x, rowC2b, rowC2x]).map (·.hid) ∧
    ([rowC2x, rowC2b, rowC2x].filter (fun x => x.hid == rowC2b.hid)).head? = some rowC2b :=
  ⟨(orchestrator_dedup_sort_amended.2.2.2 [rowC2x, rowC2b, rowC2x]).2.2.1 rowC2x
      (by decide),
   (orchestrator_dedup_sort_amended.2.2.2 [rowC2x, rowC2b, rowC2x]).2.2.2 rowC2b
      (by decide)⟩

/-! ### Claim C3 -/

/-- C3: the live orchestrator recurses only below level 1 (at any level ≥ 1
it returns just the deduplicated gathered rows, even for `caltype='all'`),
and never recurses for a specific caltype; the cache variant still recurses
at levels 1–3 and stops at level 4; and in both, recursively found rows are
appended only when their `Header.id` is new — every result (every `.ok`
result for the cache variant) has pairwise-distinct `Header.id`s. -/
theorem recursion_depth_and_dedup :
    (∀ (ctList : List String) (calObjOf : Row → CalObj) (headers : List Row)
       (rl : Nat) (fq : Bool), 1 ≤ rl →
      associate_cals ctList calObjOf headers "all" rl fq =
        dedupByHid [] (orchestrateGather ctList calObjOf "all" headers)) ∧
    (∀ (ctList : List String) (calObjOf : Row → CalObj) (headers : List Row)
       (caltype : String) (rl : Nat) (fq : Bool), caltype ≠ "all" →
      associate_cals ctList calObjOf headers caltype rl fq =
        if rl = 0 then
          bpmFirstSort fq (dedupByHid [] (orchestrateGather ctList calObjOf caltype headers))
        else dedupByHid [] (orchestrateGather ctList calObjOf caltype headers)) ∧
    (∀ (table : List CacheEntry) (headers : List Row) (rl : Nat) (fq : Bool), 4 ≤ rl →
      associate_cals_from_cache table headers "all" rl fq =
        .ok (calcacheLookup table (headers.map (·.hid)) "all")) ∧
    (∀ (table : List CacheEntry) (headers : List Row) (rl : Nat) (fq : Bool),
      1 ≤ rl → rl < 4 → calcacheLookup table (headers.map (·.hid)) "all" ≠ [] →
      associate_cals_from_cache table headers "all" rl fq =
        Except.map (fun extras =>
          calcacheLookup table (headers.map (·.hid)) "all" ++
            extras.filter (fun c =>
              decide (c.hid ∉ (calcacheLookup table (headers.map (·.hid)) "all").map (·.hid))))
          (associate_cals_from_cache table
            (calcacheLookup table (headers.map (·.hid)) "all") "all" (rl + 1) fq)) ∧
    (∀ (ctList : List String) (calObjOf : Row → CalObj) (headers : List Row)
       (caltype : String) (rl : Nat) (fq : Bool),
      ((associate_cals ctList calObjOf headers caltype rl fq).map (·.hid)).Nodup) ∧
    (∀ (table : List CacheEntry) (headers : List Row) (caltype : String) (rl : Nat)
       (fq : Bool) (l : List Row),
      associate_cals_from_cache table headers caltype rl fq = .ok l →
      (l.map (·.hid)).Nodup) := by
  refine ⟨?_, ?_, ?_, ?_, ?_, ?_⟩
  · intro ctList calObjOf headers rl fq h
    exact associate_cals_deep ctList calObjOf headers "all" rl fq h
  · intro ctList calObjOf headers caltype rl fq h
    exact associate_cals_not_all ctList calObjOf headers caltype rl fq h
  · intro table headers rl fq h
    exact associate_cals_from_cache_deep table headers "all" rl fq h
  · intro table headers rl fq h1 h4 hne
    exact associate_cals_from_cache_recurse table headers rl fq h1 h4 hne
  · intro ctList calObjOf headers caltype rl fq
    exact associate_cals_nodup ctList calObjOf headers caltype rl fq
  · intro table headers caltype rl fq l hok
    exact associate_cals_from_cache_nodup_aux 4 table headers caltype rl fq l (by omega) hok

/-- A calibration row for the C3 witness. -/
def rowC3 : Row := { baseRow with hid := 31 }

/-- A one-rule calibration object for the C3 witness. -/
def calObjC3 : Row → CalObj :=
  fun _ => { applicable := ["flat"], run := fun ct => if ct = "flat" then [rowC3] else [] }

/-- A one-entry cache table for the C3 witness. -/
def tableC3 : List CacheEntry :=
  [{ obs_hid := 0, caltype := "bias", rank := 1, cal := rowC3 }]

/-- Witness for C3 at concrete inputs: level 1 of the live path does not
recurse even for `'all'`; level 4 of the cache path does not recurse; level
3 of the cache path still recurses. -/
theorem recursion_depth_and_dedup_witness :
    associate_cals ["flat"] calObjC3 [baseRow] "all" 1 false =
      dedupByHid [] (orchestrateGather ["flat"] calObjC3 "all" [baseRow]) ∧
    associate_cals_from_cache tableC3 [baseRow] "all" 4 false =
      .ok (calcacheLookup tableC3 ([baseRow].map (·.hid)) "all") ∧
    associate_cals_from_cache tableC3 [baseRow] "all" 3 false =
      Except.map (fun extras =>
        calcacheLookup tableC3 ([baseRow].map (·.hid)) "all" ++
          extras.filter (fun c =>
            decide (c.hid ∉ (calcacheLookup tableC3 ([baseRow].map (·.hid)) "all").map (·.hid))))
        (associate_cals_from_cache tableC3
          (calcacheLookup tableC3 ([baseRow].map (·.hid)) "all") "all" 4 false) :=
  ⟨recursion_depth_and_dedup.1 ["flat"] calObjC3 [baseRow] 1 false (le_refl 1),
   recursion_depth_and_dedup.2.2.1 tableC3 [baseRow] 4 false (le_refl 4),
   recursion_depth_and_dedup.2.2.2.1 tableC3 [baseRow] 3 false (by omega) (by omega)
     (by decide)⟩

/-! ### Claim C6 -/

/-- The equality filters of `get_gnirs_flat_query`'s `match_descriptors`. -/
def gnirsFlatMatch (d : Descr) (r : Row) : Prop :=
  r.disperser = d.disperser ∧ r.focal_plane_mask = d.focal_plane_mask ∧
  r.camera = d.camera ∧ r.filter_name = d.filter_name ∧
  r.well_depth_setting = d.well_depth_setting

/-- "Rows sharing the target's `observation_id` are preferred": no row
without the target's observation id ever precedes one with it. -/
def obsIdPreferred (d : Descr) (l : List Row) : Prop :=
  List.Pairwise (fun a b =>
    b.observation_id = d.observation_id → a.observation_id = d.observation_id) l

theorem if__of_true (q : CalQuery) {c : Bool} (h : c = true) (f : CalQuery → CalQuery) :
    q.if_ c f = f q := by
  unfold CalQuery.if_
  rw [if_pos h]

theorem if__of_false (q : CalQuery) {c : Bool} (h : c = false) (f : CalQuery → CalQuery) :
    q.if_ c f = q := by
  unfold CalQuery.if_
  rw [if_neg (by simp [h])]

theorem tolerance_pred_mono (q : CalQuery) (t : Option ℚ) (col : Row → Option ℚ)
    (tol : ℚ) (c : Bool) (r : Row)
    (h : (q.tolerance t col tol c).pred r = true) : q.pred r = true := by
  unfold CalQuery.tolerance at h
  split at h
  · cases t with
    | none => exact h
    | some x => exact ((add_filters_pred_iff _ _ _).mp h).1
  · exact h

theorem gnirs_flat_query_pred_match (d : Descr) (pm : Option String) (processed : Bool)
    (r : Row) (h : (get_gnirs_flat_query d pm processed).pred r = true) :
    gnirsFlatMatch d r := by
  unfold get_gnirs_flat_query at h
  have h5 : (((((((CalQuery.init d pm).flat processed).add_filters
      (fun r => r.disperser == d.disperser)).add_filters
      (fun r => r.focal_plane_mask == d.focal_plane_mask)).add_filters
      (fun r => r.camera == d.camera)).add_filters
      (fun r => r.filter_name == d.filter_name)).add_filters
      (fun r => r.well_depth_setting == d.well_depth_setting)).pred r = true := by
    by_cases hs : d.spectroscopy = true
    · rw [if__of_true _ hs, if__of_true _ hs] at h
      have h2 := tolerance_pred_mono _ _ _ _ _ _ h
      exact ((add_filters_pred_iff _ _ _).mp h2).1
    · have hs2 : d.spectroscopy = false := by
        revert hs
        cases d.spectroscopy <;> simp
      rw [if__of_false _ hs2, if__of_false _ hs2] at h
      exact h
  rw [add_filters_pred_iff] at h5
  obtain ⟨h5, hwell⟩ := h5
  rw [add_filters_pred_iff] at h5
  obtain ⟨h5, hfilt⟩ := h5
  rw [add_filters_pred_iff] at h5
  obtain ⟨h5, hcam⟩ := h5
  rw [add_filters_pred_iff] at h5
  obtain ⟨h5, hfpm⟩ := h5
  rw [add_filters_pred_iff] at h5
  obtain ⟨-, hdisp⟩ := h5
  exact ⟨beq_iff_eq.mp hdisp, beq_iff_eq.mp hfpm, beq_iff_eq.mp hcam,
    beq_iff_eq.mp hfilt, beq_iff_eq.mp hwell⟩

theorem get_gnirs_flat_query_descr (d : Descr) (pm : Option String) (processed : Bool) :
    (get_gnirs_flat_query d pm processed).descr = d := by
  unfold get_gnirs_flat_query
  by_cases hs : d.spectroscopy = true
  · rw [if__of_true _ hs, if__of_true _ hs]
    simp [tolerance_descr, add_filters_descr, raw_or_processed_descr, CalQuery.flat,
      init_descr]
  · have hs2 : d.spectroscopy = false := by
      revert hs
      cases d.spectroscopy <;> simp
    rw [if__of_false _ hs2, if__of_false _ hs2]
    simp [add_filters_descr, raw_or_processed_descr, CalQuery.flat, init_descr]

/-- Any query materialised with the GNIRS flat ordering prefers rows that
share the target's observation id. -/
theorem obsIdPreferred_all (d : Descr) (q : CalQuery) (catalog : List Row) (limit : Nat) :
    obsIdPreferred d (q.all catalog limit (obsIdPrefLe d)) := by
  unfold CalQuery.all obsIdPreferred
  have hp : (isortBy (obsIdPrefLe d) (catalog.filter q.pred)).Pairwise
      (fun a b => obsIdPrefLe d a b = true) := by
    unfold obsIdPrefLe
    exact pairwise_isortBy (fun a b => rowLeOf_total _ _ _ _ a b)
      (fun a b c => rowLeOf_trans _ _ _ _ a b c) _
  refine ((hp.sublist (List.take_sublist _ _)).imp ?_)
  intro a b hle hb
  unfold obsIdPrefLe at hle
  have hk := rowLeOf_key1_le _ _ _ _ a b hle
  rw [if_pos hb] at hk
  by_cases ha : a.observation_id = d.observation_id
  · exact ha
  · rw [if_neg ha] at hk
    omega

/-- C6: for an XD-disperser target the GNIRS flat rule is the pairwise
interleaving (IR first) of the `IRhigh` and `QH%` sub-query results, each
sub-query returning only matching rows of its lamp kind within 90 days,
ordered with same-`observation_id` rows preferred; for a non-XD target it is
a single query admitting both lamp kinds with the same preference. -/
theorem gnirs_flat_interleave (d : Descr) (pm : Option String) (catalog : List Row)
    (processed : Bool) (hm : Option Nat) :
    (gnirsIsXD d = true →
      CalibrationGNIRS.flat d pm catalog processed hm =
        (interleave
          (gnirs_ir_all d pm catalog processed (hm.getD (if processed then 1 else 10)))
          (gnirs_qh_all d pm catalog processed (hm.getD (if processed then 1 else 10)))).take
          (hm.getD (if processed then 1 else 10))) ∧
    (∀ (howmany : Nat) (r : Row), r ∈ gnirs_ir_all d pm catalog processed howmany →
      r.gcal_lamp = "IRhigh" ∧ gnirsFlatMatch d r ∧ |r.ut - d.ut| < 90 * 86400) ∧
    (∀ (howmany : Nat) (r : Row), r ∈ gnirs_qh_all d pm catalog processed howmany →
      strStartsWith r.gcal_lamp "QH" = true ∧ gnirsFlatMatch d r ∧
        |r.ut - d.ut| < 90 * 86400) ∧
    (∀ howmany : Nat,
      obsIdPreferred d (gnirs_ir_all d pm catalog processed howmany) ∧
      obsIdPreferred d (gnirs_qh_all d pm catalog processed howmany)) ∧
    (gnirsIsXD d = false →
      CalibrationGNIRS.flat d pm catalog processed hm =
        (((get_gnirs_flat_query d pm processed).add_filters
            (fun r => r.gcal_lamp == "IRhigh" || strStartsWith r.gcal_lamp "QH"))
          |>.max_interval 90).all catalog (hm.getD (if processed then 1 else 10))
          (obsIdPrefLe d) ∧
      (∀ r ∈ CalibrationGNIRS.flat d pm catalog processed hm,
        (r.gcal_lamp = "IRhigh" ∨ strStartsWith r.gcal_lamp "QH" = true) ∧
          gnirsFlatMatch d r ∧ |r.ut - d.ut| < 90 * 86400) ∧
      obsIdPreferred d (CalibrationGNIRS.flat d pm catalog processed hm)) := by
  refine ⟨?_, ?_, ?_, ?_, ?_⟩
  · intro hxd
    unfold CalibrationGNIRS.flat
    rw [if_pos hxd, pyPadZipWeave_eq_interleave]
  · intro howmany r hr
    have hp := (mem_all_pred hr).2
    simp only [CalQuery.max_interval] at hp
    rw [add_filters_pred_iff] at hp
    obtain ⟨hp, hintv⟩ := hp
    rw [add_filters_pred_iff] at hp
    obtain ⟨hbase, hlamp⟩ := hp
    refine ⟨beq_iff_eq.mp hlamp, gnirs_flat_query_pred_match d pm processed r hbase, ?_⟩
    simp only [add_filters_descr, get_gnirs_flat_query_descr, Bool.and_eq_true,
      decide_eq_true_eq] at hintv
    rw [abs_lt]
    omega
  · intro howmany r hr
    have hp := (mem_all_pred hr).2
    simp only [CalQuery.max_interval] at hp
    rw [add_filters_pred_iff] at hp
    obtain ⟨hp, hintv⟩ := hp
    rw [add_filters_pred_iff] at hp
    obtain ⟨hbase, hlamp⟩ := hp
    refine ⟨hlamp, gnirs_flat_query_pred_match d pm processed r hbase, ?_⟩
    simp only [add_filters_descr, get_gnirs_flat_query_descr, Bool.and_eq_true,
      decide_eq_true_eq] at hintv
    rw [abs_lt]
    omega
  · intro howmany
    exact ⟨obsIdPreferred_all d _ catalog howmany, obsIdPreferred_all d _ catalog howmany⟩
  · intro hxd
    have hflat : CalibrationGNIRS.flat d pm catalog processed hm =
        (((get_gnirs_flat_query d pm processed).add_filters
            (fun r => r.gcal_lamp == "IRhigh" || strStartsWith r.gcal_lamp "QH"))
          |>.max_interval 90).all catalog (hm.getD (if processed then 1 else 10))
          (obsIdPrefLe d) := by
      unfold CalibrationGNIRS.flat
      rw [if_neg (by simp [hxd])]
    refine ⟨hflat, ?_, ?_⟩
    · intro r hr
      rw [hflat] at hr
      have hp := (mem_all_pred hr).2
      simp only [CalQuery.max_interval] at hp
      rw [add_filters_pred_iff] at hp
      obtain ⟨hp, hintv⟩ := hp
      rw [add_filters_pred_iff] at hp
      obtain ⟨hbase, hlamp⟩ := hp
      refine ⟨?_, gnirs_flat_query_pred_match d pm processed r hbase, ?_⟩
      · rcases (Bool.or_eq_true _ _).mp hlamp with h | h
        · exact Or.inl (beq_iff_eq.mp h)
        · exact Or.inr h
      · simp only [add_filters_descr, get_gnirs_flat_query_descr, Bool.and_eq_true,
          decide_eq_true_eq] at hintv
        rw [abs_lt]
        omega
    · rw [hflat]
      exact obsIdPreferred_all d _ catalog _

/-- An XD GNIRS target (imaging-path fields, which keeps the fixture
small; `gnirsIsXD` looks only at the disperser). -/
def descrC6 : Descr :=
  { baseDescr with
    instrument := "GNIRS"
    disperser := some "32/mm_SXD"
    ut := 0 }

/-- An `IRhigh` flat row matching `descrC6`. -/
def rowC6ir : Row :=
  { baseRow with
    hid := 61
    instrument := "GNIRS"
    observation_type := "FLAT"
    gcal_lamp := "IRhigh"
    disperser := some "32/mm_SXD"
    ut := 3600 }

/-- A `QH%` flat row matching `descrC6`. -/
def rowC6qh : Row :=
  { baseRow with
    hid := 62
    instrument := "GNIRS"
    observation_type := "FLAT"
    gcal_lamp := "QH_high"
    disperser := some "32/mm_SXD"
    ut := 7200 }

/-- Witness for C6 at a concrete XD target and catalog: the rule output is
the interleaving, and a concrete member of the IR sub-query is an `IRhigh`
row matching the target within 90 days. -/
theorem gnirs_flat_interleave_witness :
    CalibrationGNIRS.flat descrC6 none [rowC6ir, rowC6qh] false none =
      (interleave (gnirs_ir_all descrC6 none [rowC6ir, rowC6qh] false 10)
        (gnirs_qh_all descrC6 none [rowC6ir, rowC6qh] false 10)).take 10 ∧
    (rowC6ir.gcal_lamp = "IRhigh" ∧ gnirsFlatMatch descrC6 rowC6ir ∧
      |rowC6ir.ut - descrC6.ut| < 90 * 86400) :=
  ⟨(gnirs_flat_interleave descrC6 none [rowC6ir, rowC6qh] false none).1 (by decide),
   (gnirs_flat_interleave descrC6 none [rowC6ir, rowC6qh] false none).2.1 10 rowC6ir
     (by
       have h : gnirs_ir_all descrC6 none [rowC6ir, rowC6qh] false 10 = [rowC6ir] := by
         with_unfolding_all rfl
       rw [h]
       exact List.mem_singleton.mpr rfl)⟩

/-! ### Claim C7 -/

/-- The C7 target: GMOS spectroscopy with disperser `R400`
(`n = 400`, `tolerance = 200·(0.03/400) = 0.015`). -/
def descrC7 : Descr :=
  { baseDescr with
    spectroscopy := true
    ut := 0
    central_wavelength := some (7/10)
    disperser := some "R400"
    filter_name := some "r"
    detector_x_bin := some 1
    detector_y_bin := some 1 }

/-- Candidate A: a perfect wavelength match exactly 10 days away.  Its
`timedelta.seconds` component is 0 (864000 = 10·86400), so the code scores
it 0, although its full separation is 10 days. -/
def rowC7a : Row :=
  { baseRow with
    hid := 71
    observation_type := "STANDARD"
    types := "SLITILLUM"
    ut := 864000
    central_wavelength := some (7/10)
    disperser := some "R400"
    filter_name := some "r"
    detector_x_bin := some 1
    detector_y_bin := some 1 }

/-- Candidate B: one hour away with a wavelength offset of `0.2·tolerance`
(0.003 μm).  Under the claim's scoring — full separation — B beats A
(`0.2 + 3600/2592000 < 864000/2592000 = 1/3`), but the code returns A. -/
def rowC7b : Row :=
  { baseRow with
    hid := 72
    observation_type := "STANDARD"
    types := "SLITILLUM"
    ut := 3600
    central_wavelength := some (703/1000)
    disperser := some "R400"
    filter_name := some "r"
    detector_x_bin := some 1
    detector_y_bin := some 1 }

/-- C7 (code bug evaluated): the `standard` (and `slitillum`) rule's score
uses `(header.ut_datetime - ut_datetime).seconds` — the seconds *component*
of the timedelta, an integer in `[0, 86400)` that ignores whole days — even
though its own comment says the term is "the difference in date as a
fraction of the allowed ... interval".  On this catalog the code returns
candidate A (10 days away, code time-score 0) although the specified score
ranks candidate B (1 hour away) strictly better. -/
theorem standard_score_seconds_component_bug :
    CalibrationGMOS.standard descrC7 none [rowC7b, rowC7a] false none = .ok [rowC7a] ∧
    CalibrationGMOS.slitillum descrC7 none [rowC7b, rowC7a] false none = .ok [rowC7a] ∧
    gmosFuzzyTolerance "R400" = 3/200 ∧
    standardScoreSpec descrC7 (7/10) (3/200) rowC7b <
      standardScoreSpec descrC7 (7/10) (3/200) rowC7a ∧
    pyTimedeltaSeconds (rowC7a.ut - descrC7.ut) = 0 ∧
    gmosStandardScore descrC7 (7/10) (3/200) rowC7a = 0 := by
  refine ⟨?_, ?_, ?_, ?_, ?_, ?_⟩
  · with_unfolding_all rfl
  · with_unfolding_all rfl
  · with_unfolding_all rfl
  · with_unfolding_all decide
  · with_unfolding_all rfl
  · with_unfolding_all rfl

end GeminiCalMgr
